import Mathlib

/-!
Verification of the cmicro compiler front-end (lexer, parser, IR emitter)
against its natural-language specification.  The C sources under
`src/cmicro/src` are shallowly embedded below: C strings become `String` /
`List Char`, the stateful lexer and parser become explicit state passing,
`FILE*` output becomes an accumulated list of emitted chunks, and the
diagnostic sink (`report_error`, which only prints and never terminates the
process) is modelled as a recorded flag / message list where a claim needs
it.  Machine integers are modelled as `Nat` / `Int`; the only place C
truncation matters (the `(char)` casts in escape parsing) takes an explicit
`% 256`.
-/

set_option maxRecDepth 4000

namespace Cmicro

/- ===================== -/
/- Tokens (lexer.h)      -/
/- ===================== -/

/-- Token kinds, from `token_type_t` in `include/lexer.h`.
The constructor `ellipsis` is **modelled from the spec**: `parser.c:489`
reads `TOKEN_ELLIPSIS`, but no header under `src/` declares it and the
lexer's operator table has no `"..."` entry; the spec says the three-byte
sequence `...` tokenises as a single "ellipsis" token. -/
inductive token_type_t where
  | nlit | flit | clit | slit | blit | ident | keyword
  | plus | minus | star | slash | percent | assign | eq | neq | lt | gt | lte | gte
  | lparen | rparen | lbrace | rbrace | semi | comma | dot
  | tok_error | eof
  | ellipsis
deriving DecidableEq, Repr

/-- The token payload union (`token_t.value` in `lexer.h`).  Float literals
carry their raw lexeme (the `strtod` conversion is not modelled; no claim
depends on the numeric value of a float literal). -/
inductive token_value_t where
  | none
  | i64 (v : Int)
  | f64raw (s : String)
  | ch (c : Char)
  | str (s : String)
deriving DecidableEq, Repr

/-- `token_t` from `lexer.h`.  `lexeme` holds the `len`-byte slice of the
source that the C struct addresses by pointer + length. -/
structure token_t where
  type : token_type_t
  pos : Nat
  line : Nat
  column : Nat
  lexeme : String
  len : Nat
  value : token_value_t
deriving DecidableEq, Repr

/-- `lexer_t` from `lexer.h`; the `len` field is `src.length` (main.c
always initialises it with the buffer's length). -/
structure lexer_t where
  src : List Char
  pos : Nat
  line : Nat
  column : Nat
deriving DecidableEq, Repr

/- ===================== -/
/- ctype.h predicates    -/
/- ===================== -/

/-- C-locale `isspace`. -/
def isspace (c : Char) : Bool :=
  c == ' ' || c == '\t' || c == '\n' || c == '\x0b' || c == '\x0c' || c == '\r'

/-- C-locale `isdigit`. -/
def isdigit (c : Char) : Bool := '0' ≤ c && c ≤ '9'

/-- C-locale `isalpha`. -/
def isalpha (c : Char) : Bool := ('a' ≤ c && c ≤ 'z') || ('A' ≤ c && c ≤ 'Z')

/-- C-locale `isalnum`. -/
def isalnum (c : Char) : Bool := isalpha c || isdigit c

/-- C-locale `isxdigit`. -/
def isxdigit (c : Char) : Bool :=
  isdigit c || ('a' ≤ c && c ≤ 'f') || ('A' ≤ c && c ≤ 'F')

/-- C-locale `tolower` restricted to hex digits, plus digit value, as used
in `lexer_parse_escape`'s hex case. -/
def hexval (c : Char) : Nat :=
  if isdigit c then c.toNat - '0'.toNat
  else if 'a' ≤ c && c ≤ 'f' then c.toNat - 'a'.toNat + 10
  else if 'A' ≤ c && c ≤ 'F' then c.toNat - 'A'.toNat + 10
  else 0

/- ===================== -/
/- Helper tables         -/
/- ===================== -/

/-- The `keywords` table of `lexer.c` (word, token type). -/
def keywords : List (String × token_type_t) :=
  [("import", .keyword), ("typedef", .keyword),
   ("return", .keyword), ("if", .keyword), ("else", .keyword),
   ("while", .keyword), ("for", .keyword), ("void", .keyword),
   ("char", .keyword), ("int", .keyword), ("uint", .keyword),
   ("float", .keyword), ("double", .keyword),
   ("true", .blit), ("false", .blit)]

/-- The `operators` table of `lexer.c`, lines 44-50, in source order. -/
def operators : List (String × token_type_t) :=
  [("+", .plus), ("-", .minus), ("*", .star), ("/", .slash),
   ("%", .percent), ("==", .eq), ("!=", .neq), ("=", .assign),
   ("<=", .lte), (">=", .gte), ("<", .lt), (">", .gt),
   ("(", .lparen), (")", .rparen), ("\x7b", .lbrace), ("\x7d", .rbrace),
   (";", .semi), (",", .comma), (".", .dot)]

/-- Modelled from the spec: the operator table extended with the variadic
ellipsis, which is missing from `src/` (see `token_type_t.ellipsis`).  The
entry is placed first so that `...` wins over `.`, as the spec's
longest-match-first rule requires. -/
def operators_spec : List (String × token_type_t) :=
  ("...", .ellipsis) :: operators

/- ===================== -/
/- Lexer utilities       -/
/- ===================== -/

/-- `lexer_peek` (lexer.c:56): the byte at `pos`, or `'\0'` at or past the
end of the buffer. -/
def lexer_peek (lex : lexer_t) : Char :=
  if lex.pos < lex.src.length then lex.src.getD lex.pos '\x00' else '\x00'

/-- `lexer_advance` (lexer.c:61): consume one byte, maintaining line and
column; a NUL peek (end of buffer) leaves the state unchanged. -/
def lexer_advance (lex : lexer_t) : Char × lexer_t :=
  let c := lexer_peek lex
  if c = '\x00' then (c, lex)
  else if c = '\n' then
    (c, { lex with pos := lex.pos + 1, line := lex.line + 1, column := 1 })
  else
    (c, { lex with pos := lex.pos + 1, column := lex.column + 1 })

/-- The slice `&src[start]` of length `len`, as a `String`. -/
def slice (src : List Char) (start len : Nat) : String :=
  String.mk ((src.drop start).take len)

/-- `lexer_error` (lexer.c:98): builds the `TOKEN_ERROR` token (the fatal
diagnostic it prints has no effect on lexer state). -/
def lexer_error (lex : lexer_t) (start : Nat) : token_t :=
  { type := .tok_error, pos := start, line := lex.line, column := lex.column,
    lexeme := slice lex.src start (lex.pos - start), len := lex.pos - start,
    value := .none }

/-- One step of the octal-escape loop in `lexer_parse_escape` (consume a
further octal digit if present). -/
def oct_step (v : Nat) (lex : lexer_t) : Nat × lexer_t :=
  let nxt := lexer_peek lex
  if '0' ≤ nxt ∧ nxt ≤ '7' then (v * 8 + (nxt.toNat - '0'.toNat), (lexer_advance lex).2)
  else (v, lex)

/-- The greedy hex-escape loop in `lexer_parse_escape`. -/
def hex_go : Nat → Nat → lexer_t → Nat × lexer_t
  | 0, v, lex => (v, lex)
  | fuel + 1, v, lex =>
    if isxdigit (lexer_peek lex) then
      let (d, lex1) := lexer_advance lex
      hex_go fuel (v * 16 + hexval d) lex1
    else (v, lex)

/-- `lexer_parse_escape` (lexer.c:112).  The C `(char)` casts truncate, so
octal/hex values are taken `% 256`. -/
def lexer_parse_escape (lex : lexer_t) : Char × lexer_t :=
  let (c, lex1) := lexer_advance lex
  if c = 'n' then ('\n', lex1)
  else if c = 't' then ('\t', lex1)
  else if c = 'r' then ('\r', lex1)
  else if '0' ≤ c ∧ c ≤ '7' then
    let (v1, lex2) := oct_step (c.toNat - '0'.toNat) lex1
    let (v2, lex3) := oct_step v1 lex2
    (Char.ofNat (v2 % 256), lex3)
  else if c = 'x' then
    let (v, lex2) := hex_go (lex1.src.length - lex1.pos + 1) 0 lex1
    (Char.ofNat (v % 256), lex2)
  else if c = '\'' then ('\'', lex1)
  else if c = '"' then ('"', lex1)
  else if c = '\\' then ('\\', lex1)
  else if c = '?' then ('?', lex1)
  else if c = 'a' then ('\x07', lex1)
  else if c = 'b' then ('\x08', lex1)
  else if c = 'f' then ('\x0c', lex1)
  else if c = 'v' then ('\x0b', lex1)
  else (c, lex1)

/- ============================ -/
/- Skip whitespace and comments -/
/- ============================ -/

/-- The `// ...` loop of `lexer_skip_ws_and_comments`: advance while the
peek is neither newline nor NUL. -/
def skip_line_go : Nat → lexer_t → lexer_t
  | 0, lex => lex
  | fuel + 1, lex =>
    if lexer_peek lex ≠ '\n' ∧ lexer_peek lex ≠ '\x00' then
      skip_line_go fuel (lexer_advance lex).2
    else lex

/-- The `/* ... */` body loop: advance while `pos + 1 < len` and the next
two bytes are not the comment terminator. -/
def skip_block_go : Nat → lexer_t → lexer_t
  | 0, lex => lex
  | fuel + 1, lex =>
    if lex.pos + 1 < lex.src.length ∧
        ¬(lexer_peek lex = '*' ∧ lex.src.getD (lex.pos + 1) '\x00' = '/') then
      skip_block_go fuel (lexer_advance lex).2
    else lex

/-- Fuel bound for the block-comment body loop. -/
def lex3fuel (lex : lexer_t) : Nat := lex.src.length - lex.pos + 1

/-- The outer loop of `lexer_skip_ws_and_comments` (lexer.c:181).  Each
continuing iteration advances `pos` by at least one, so fuel
`len - pos + 1` (supplied by the wrapper below) suffices.  The
unterminated-block-comment diagnostic only prints; it does not change
lexer state. -/
def lexer_skip_go : Nat → lexer_t → lexer_t
  | 0, lex => lex
  | fuel + 1, lex =>
    let c := lexer_peek lex
    if isspace c then lexer_skip_go fuel (lexer_advance lex).2
    else if c = '/' ∧ lex.pos + 1 < lex.src.length ∧ lex.src.getD (lex.pos + 1) '\x00' = '/' then
      let lex1 := (lexer_advance lex).2
      let lex2 := (lexer_advance lex1).2
      lexer_skip_go fuel (skip_line_go (lex2.src.length - lex2.pos + 1) lex2)
    else if c = '/' ∧ lex.pos + 1 < lex.src.length ∧ lex.src.getD (lex.pos + 1) '\x00' = '*' then
      let lex1 := (lexer_advance lex).2
      let lex2 := (lexer_advance lex1).2
      let lex3 := skip_block_go (lex3fuel lex2) lex2
      if lexer_peek lex3 = '*' ∧ lex3.pos + 1 < lex3.src.length then
        lexer_skip_go fuel (lexer_advance (lexer_advance lex3).2).2
      else
        lexer_skip_go fuel lex3
    else lex

/-- `lexer_skip_ws_and_comments` (lexer.c:181), with the loop fuel
instantiated to a sufficient bound. -/
def lexer_skip_ws_and_comments (lex : lexer_t) : lexer_t :=
  lexer_skip_go (lex.src.length - lex.pos + 1) lex

/- ===================== -/
/- Lookup functions      -/
/- ===================== -/

/-- `lookup_keyword` (lexer.c:231): scan the keyword table for an entry
whose word equals the lexeme (the C code compares length and the first
`len` bytes, which on a `len`-slice is string equality). -/
def lookup_keyword (lexeme : String) : token_type_t :=
  match keywords.find? (fun kv => kv.1 == lexeme) with
  | some kv => kv.2
  | none => .ident

/-- Matching of `strncmp(&src[pos], op, len) == 0` for the operator scan. -/
def match_at (src : List Char) (pos : Nat) : List Char → Bool
  | [] => true
  | c :: cs => (src.getD pos '\x00' == c) && match_at src (pos + 1) cs

/-- `lookup_operator` (lexer.c:243): scan the given operator table in
order; the first entry that fits within the buffer and matches wins.  The
C function signals "no operator" by returning `TOKEN_IDENT`; that is
`none` here. -/
def lookup_operator (ops : List (String × token_type_t)) (lex : lexer_t) :
    Option (token_type_t × Nat) :=
  match ops with
  | [] => none
  | (op, t) :: rest =>
    if lex.pos + op.length ≤ lex.src.length ∧ match_at lex.src lex.pos op.data then
      some (t, op.length)
    else lookup_operator rest lex

/- ===================== -/
/- Main lexer            -/
/- ===================== -/

/-- The number-scanning loop of `lexer_next` (lexer.c:282): consume digits
and at most one `.`; a second `.` terminates the literal without being
consumed.  Returns the state after the literal and the `has_dot` flag. -/
def lexer_number_go : Nat → lexer_t → Bool → lexer_t × Bool
  | 0, lex, hd => (lex, hd)
  | fuel + 1, lex, hd =>
    let c := lexer_peek lex
    if isdigit c then lexer_number_go fuel (lexer_advance lex).2 hd
    else if c = '.' then
      if hd then (lex, hd)
      else lexer_number_go fuel (lexer_advance lex).2 true
    else (lex, hd)

/-- `strtoll(lexeme, NULL, 10)` on a lexer-produced integer lexeme:
convert the leading run of decimal digits. -/
def strtoll10 (cs : List Char) : Int :=
  Int.ofNat ((cs.takeWhile isdigit).foldl (fun a c => a * 10 + (c.toNat - '0'.toNat)) 0)

/-- The identifier-scanning loop of `lexer_next` (lexer.c:314). -/
def lexer_ident_go : Nat → lexer_t → lexer_t
  | 0, lex => lex
  | fuel + 1, lex =>
    if isalnum (lexer_peek lex) || lexer_peek lex == '_' then
      lexer_ident_go fuel (lexer_advance lex).2
    else lex

/-- The string-literal body loop of `lexer_next` (lexer.c:372): cook bytes
(resolving escapes) until a closing quote or NUL peek. -/
def lexer_string_go : Nat → lexer_t → List Char → lexer_t × List Char
  | 0, lex, buf => (lex, buf)
  | fuel + 1, lex, buf =>
    if lexer_peek lex ≠ '"' ∧ lexer_peek lex ≠ '\x00' then
      if lexer_peek lex = '\\' then
        let lex1 := (lexer_advance lex).2
        let (e, lex2) := lexer_parse_escape lex1
        lexer_string_go fuel lex2 (buf ++ [e])
      else
        let (c, lex1) := lexer_advance lex
        lexer_string_go fuel lex1 (buf ++ [c])
    else (lex, buf)

/-- Apply `lexer_advance` `n` times (the operator-consumption loop at
lexer.c:413). -/
def advance_n : Nat → lexer_t → lexer_t
  | 0, lex => lex
  | n + 1, lex => advance_n n (lexer_advance lex).2

/-- `lexer_next` (lexer.c:260), parametrised by the operator table: the
claims about the table shipped in `src/` use `operators`, the
spec-modelled ellipsis claims use `operators_spec`. -/
def lexer_next (ops : List (String × token_type_t)) (lex0 : lexer_t) :
    token_t × lexer_t :=
  let lex := lexer_skip_ws_and_comments lex0
  let tpos := lex.pos
  let tline := lex.line
  let tcol := lex.column
  let c := lexer_peek lex
  if c = '\x00' then
    ({ type := .eof, pos := tpos, line := tline, column := tcol,
       lexeme := "", len := 0, value := .none }, lex)
  else if isdigit c then
    let (lex1, hd) := lexer_number_go (lex.src.length - lex.pos + 1) lex false
    let lexeme := slice lex.src tpos (lex1.pos - tpos)
    if hd then
      ({ type := .flit, pos := tpos, line := tline, column := tcol,
         lexeme := lexeme, len := lex1.pos - tpos, value := .f64raw lexeme }, lex1)
    else
      ({ type := .nlit, pos := tpos, line := tline, column := tcol,
         lexeme := lexeme, len := lex1.pos - tpos,
         value := .i64 (strtoll10 lexeme.data) }, lex1)
  else if isalpha c || c == '_' then
    let lex1 := lexer_ident_go (lex.src.length - lex.pos + 1) lex
    let lexeme := slice lex.src tpos (lex1.pos - tpos)
    let tt := lookup_keyword lexeme
    let v : token_value_t :=
      if tt = .blit then
        if lexeme = "true" then .i64 1
        else if lexeme = "false" then .i64 0
        else .none
      else .none
    ({ type := tt, pos := tpos, line := tline, column := tcol,
       lexeme := lexeme, len := lex1.pos - tpos, value := v }, lex1)
  else if c = '\'' then
    let lex1 := (lexer_advance lex).2
    let start := lex1.pos
    let (val, lex2) :=
      if lexer_peek lex1 = '\\' then
        lexer_parse_escape (lexer_advance lex1).2
      else lexer_advance lex1
    if lexer_peek lex2 ≠ '\'' then (lexer_error lex2 (start - 1), lex2)
    else
      let lex3 := (lexer_advance lex2).2
      ({ type := .clit, pos := start - 1, line := lex3.line, column := lex3.column,
         lexeme := slice lex3.src (start - 1) (lex3.pos - (start - 1)),
         len := lex3.pos - (start - 1), value := .ch val }, lex3)
  else if c = '"' then
    let lex1 := (lexer_advance lex).2
    let start := lex1.pos
    let (lex2, buf) := lexer_string_go (lex1.src.length - lex1.pos + 1) lex1 []
    if lexer_peek lex2 ≠ '"' then (lexer_error lex2 (start - 1), lex2)
    else
      let lex3 := (lexer_advance lex2).2
      ({ type := .slit, pos := start - 1, line := lex3.line, column := lex3.column,
         lexeme := slice lex3.src start (lex3.pos - start - 1),
         len := lex3.pos - start - 1, value := .str (String.mk buf) }, lex3)
  else
    match lookup_operator ops lex with
    | some (t, oplen) =>
      ({ type := t, pos := tpos, line := tline, column := tcol,
         lexeme := slice lex.src lex.pos oplen, len := oplen, value := .none },
       advance_n oplen lex)
    | none =>
      let lex1 := (lexer_advance lex).2
      ({ type := .tok_error, pos := tpos, line := tline, column := tcol,
         lexeme := slice lex.src tpos 1, len := 1, value := .none }, lex1)

/-- Run the lexer to completion (main.c materialises the token vector by
calling `lexer_next` until `TOKEN_EOF`, keeping the final eof token). -/
def lex_all : Nat → List (String × token_type_t) → lexer_t → List token_t
  | 0, _, _ => []
  | fuel + 1, ops, lex =>
    let (t, lex1) := lexer_next ops lex
    if t.type = .eof then [t] else t :: lex_all fuel ops lex1

/-- A fresh lexer over the given source text, at position (1,1). -/
def lexer_init (s : String) : lexer_t :=
  { src := s.data, pos := 0, line := 1, column := 1 }

/- ===================== -/
/- AST (parser.h)        -/
/- ===================== -/

/-- `param_node_t` from `parser.h`; the singly linked list becomes a
`List`. -/
structure param_node_t where
  name : String
  name_len : Nat
  type : Option String
  is_variadic : Bool
deriving DecidableEq, Repr

/-- `ast_node_t` from `parser.h`: one constructor per `NODE_*` kind.  The
C `ast_number_t` union plus `lit_type` discriminator becomes the two
constructors `number_int` / `number_float` (the latter carrying the raw
lexeme, see `token_value_t`).  Child pointers that the parser can
legitimately leave NULL are `Option`s. -/
inductive ast_node_t where
  | binop (op : token_type_t) (left right : ast_node_t)
  | number_int (v : Int)
  | number_float (raw : String)
  | string_lit (value : String)
  | ident (name : String)
  | assign (name : String) (type : Option String) (value : Option ast_node_t)
  | return_stmt (expr : Option ast_node_t)
  | func_def (name : String) (return_type : String) (params : List param_node_t)
      (root : Option ast_node_t) (is_declaration : Bool)
  | func_call (name : String) (args : List ast_node_t)
  | block (stmts : List ast_node_t)
  | program (func_defs : List ast_node_t)
  | if_stmt (condition then_block : ast_node_t) (else_block : Option ast_node_t)
  | elseif_stmt (condition then_block : ast_node_t) (else_block : Option ast_node_t)
  | else_stmt (blk : ast_node_t)
  | import_stmt (module : String)
deriving Repr

/- ===================== -/
/- Parser state          -/
/- ===================== -/

/-- Parser state: the C `parser_t` (token array + cursor) together with
the module-level sticky `error` flag of `parser.c:15`, threaded
explicitly. -/
structure pstate_t where
  tokens : List token_t
  pos : Nat
  err : Bool
deriving Repr

/-- Default token for out-of-bounds reads; the driver terminates the token
vector with an eof token, which the parser never advances past. -/
def eof_token : token_t :=
  { type := .eof, pos := 0, line := 0, column := 0, lexeme := "", len := 0, value := .none }

/-- `parser_peek` (parser.c:28). -/
def parser_peek (st : pstate_t) : token_t := st.tokens.getD st.pos eof_token

/-- `parser_advance` (parser.c:33). -/
def parser_advance (st : pstate_t) : token_t × pstate_t :=
  (parser_peek st, { st with pos := st.pos + 1 })

/-- `parser_error` (parser.c:38): report a diagnostic (print only) and
latch the sticky flag; a no-op once the flag is set. -/
def parser_error (st : pstate_t) : pstate_t :=
  if st.err then st else { st with err := true }

/-- `get_precedence` (parser.c:48). -/
def get_precedence : token_type_t → Int
  | .star | .slash | .percent => 3
  | .plus | .minus => 2
  | .eq | .neq | .lt | .gt | .lte | .gte => 1
  | .assign => 0
  | _ => -1

/-- The shared shape of every `ast_create_*` helper (parser.c:76-360):
return NULL when the sticky error flag is set, otherwise the node
(allocation is assumed to succeed; the out-of-memory branches are not
modelled). -/
def mk_node (st : pstate_t) (a : ast_node_t) : Option ast_node_t :=
  if st.err then none else some a

/-- `strncmp(tok.lexeme, target, tok.len) == 0` for a keyword token: on a
NUL-free `len`-byte lexeme slice this is equality with the first
`lexeme.length` bytes of `target`. -/
def kw_eq (tok : token_t) (target : String) : Bool :=
  tok.lexeme == target.take tok.lexeme.length

/-- Extract the `i64` union field of a token payload (reading the field
the lexer last stored; other states read as 0). -/
def token_value_t.i64v : token_value_t → Int
  | .i64 v => v
  | _ => 0

/-- Extract the raw float lexeme of a token payload. -/
def token_value_t.f64v : token_value_t → String
  | .f64raw s => s
  | _ => ""

/-- Extract the string union field of a token payload. -/
def token_value_t.strv : token_value_t → String
  | .str s => s
  | _ => ""

/- ========================== -/
/- parse_param_list           -/
/- ========================== -/

/-- The element loop of `parse_param_list` (parser.c:487).  Result `none`
models the C error returns out of the loop (the flag is latched in the
state); `some acc` models falling out of the loop (at `)` or at the
variadic break), after which `parse_param_list` performs the closing
check.  Each continuing iteration consumes at least one token, so the
fuel supplied by `parse_param_list` suffices. -/
def param_loop : Nat → pstate_t → List param_node_t →
    Option (List param_node_t) × pstate_t
  | 0, st, _ => (none, st)
  | fuel + 1, st, acc =>
    if (parser_peek st).type = .rparen then (some acc, st)
    else if (parser_peek st).type = .ellipsis then
      let st1 := (parser_advance st).2
      let pn : param_node_t := { name := "", name_len := 0, type := none, is_variadic := true }
      if (parser_peek st1).type = .comma then (none, parser_error st1)
      else (some (acc ++ [pn]), st1)
    else if (parser_peek st).type ≠ .keyword then (none, parser_error st)
    else
      let type_tok := parser_peek st
      let st1 := (parser_advance st).2
      if (parser_peek st1).type ≠ .ident then (none, parser_error st1)
      else
        let name_tok := parser_peek st1
        let st2 := (parser_advance st1).2
        let pn : param_node_t :=
          { name := name_tok.lexeme, name_len := name_tok.len,
            type := some type_tok.lexeme, is_variadic := false }
        if (parser_peek st2).type = .comma then
          param_loop fuel (parser_advance st2).2 (acc ++ [pn])
        else if (parser_peek st2).type ≠ .rparen then (none, parser_error st2)
        else param_loop fuel st2 (acc ++ [pn])

/-- `parse_param_list` (parser.c:473).  The C function returns the list
head, which is NULL both on error and for an empty list; callers
distinguish via the sticky flag, so the embedding returns a plain list
with the flag in the state. -/
def parse_param_list (st : pstate_t) : List param_node_t × pstate_t :=
  if st.err then ([], st)
  else if (parser_peek st).type ≠ .lparen then ([], parser_error st)
  else
    let st1 := (parser_advance st).2
    match param_loop (st1.tokens.length - st1.pos + 1) st1 [] with
    | (none, st2) => ([], st2)
    | (some acc, st2) =>
      if (parser_peek st2).type ≠ .rparen then ([], parser_error st2)
      else (acc, (parser_advance st2).2)

/- ========================== -/
/- import helpers             -/
/- ========================== -/

/-- The dotted-name lookahead loop of the import branch
(parser.c:1230): count the additional `.IDENT` pairs after the first
identifier. -/
def count_dotted_go : Nat → List token_t → Nat → Nat
  | 0, _, _ => 0
  | fuel + 1, toks, tp =>
    if (toks.getD (tp + 1) eof_token).type = .dot ∧
        (toks.getD (tp + 2) eof_token).type = .ident then
      1 + count_dotted_go fuel toks (tp + 2)
    else 0

/-- The module-name build loop of the import branch (parser.c:1249):
consume `n` identifiers separated by dots, concatenating them. -/
def build_module : Nat → pstate_t → String → Option String × pstate_t
  | 0, st, acc => (some acc, st)
  | n + 1, st, acc =>
    let cur := parser_peek st
    if cur.type ≠ .ident then (none, parser_error st)
    else
      let acc1 := acc ++ cur.lexeme
      let st1 := (parser_advance st).2
      if n = 0 then (some acc1, st1)
      else if (parser_peek st1).type ≠ .dot then (none, parser_error st1)
      else build_module n (parser_advance st1).2 (acc1 ++ ".")

/- ========================== -/
/- Recursive-descent parsers  -/
/- ========================== -/

/-!
The mutually recursive parse functions of `parser.c`, structurally
recursive on a fuel argument (each nested parse runs with one unit less);
fuel exhaustion returns `none` without touching the state, a case no run
with adequate fuel reaches.  A `none` result together with a clear error
flag can only arise from fuel exhaustion: every C path that returns NULL
first latches the sticky flag (creators included), so the embeddings
short-circuit such `none` results exactly where the C code checks `error`
or dereferences the pointer.
-/

mutual

/-- `parse_factor` (parser.c:373). -/
def parse_factor : Nat → pstate_t → Option ast_node_t × pstate_t
  | 0, st => (none, st)
  | fuel + 1, st =>
    if st.err then (none, st)
    else
      let tok := parser_peek st
      if tok.type = .nlit then
        let st1 := (parser_advance st).2
        (mk_node st1 (.number_int tok.value.i64v), st1)
      else if tok.type = .flit then
        let st1 := (parser_advance st).2
        (mk_node st1 (.number_float tok.value.f64v), st1)
      else if tok.type = .slit then
        let st1 := (parser_advance st).2
        (mk_node st1 (.string_lit tok.value.strv), st1)
      else if tok.type = .ident then
        let st1 := (parser_advance st).2
        if (parser_peek st1).type = .lparen then
          parse_func_call fuel { st1 with pos := st1.pos - 1 }
        else (mk_node st1 (.ident tok.lexeme), st1)
      else if tok.type = .lparen then
        let st1 := (parser_advance st).2
        let (e?, st2) := parse_expression fuel 0 st1
        if st2.err then (none, st2)
        else if (parser_peek st2).type ≠ .rparen then (none, parser_error st2)
        else (e?, (parser_advance st2).2)
      else (none, parser_error st)

/-- `parse_expression` (parser.c:438): parse a factor, then climb. -/
def parse_expression : Nat → Int → pstate_t → Option ast_node_t × pstate_t
  | 0, _, st => (none, st)
  | fuel + 1, minp, st =>
    if st.err then (none, st)
    else
      let (l?, st1) := parse_factor fuel st
      if st1.err then (none, st1)
      else
        match l? with
        | none => (none, st1)
        | some l => parse_expr_loop fuel minp l st1

/-- The precedence-climbing loop of `parse_expression` (parser.c:446). -/
def parse_expr_loop : Nat → Int → ast_node_t → pstate_t → Option ast_node_t × pstate_t
  | 0, _, _, st => (none, st)
  | fuel + 1, minp, left, st =>
    let tok := parser_peek st
    if get_precedence tok.type < minp then (some left, st)
    else
      let st1 := (parser_advance st).2
      let (r?, st2) := parse_expression fuel (get_precedence tok.type + 1) st1
      if st2.err then (none, st2)
      else
        match r? with
        | none => (none, st2)
        | some r => parse_expr_loop fuel minp (.binop tok.type left r) st2

/-- The argument loop of `parse_func_call` (parser.c:872). -/
def parse_call_args : Nat → pstate_t → List ast_node_t →
    Option (List ast_node_t) × pstate_t
  | 0, st, _ => (none, st)
  | fuel + 1, st, acc =>
    if (parser_peek st).type = .rparen then (some acc, st)
    else
      let (a?, st1) := parse_expression fuel 0 st
      match a? with
      | none => (none, parser_error st1)
      | some a =>
        if st1.err then (none, parser_error st1)
        else if (parser_peek st1).type = .comma then
          parse_call_args fuel (parser_advance st1).2 (acc ++ [a])
        else if (parser_peek st1).type ≠ .rparen then (none, parser_error st1)
        else parse_call_args fuel st1 (acc ++ [a])

/-- `parse_func_call` (parser.c:839). -/
def parse_func_call : Nat → pstate_t → Option ast_node_t × pstate_t
  | 0, st => (none, st)
  | fuel + 1, st =>
    if st.err then (none, st)
    else
      let name_tok := parser_peek st
      if name_tok.type ≠ .ident then (none, parser_error st)
      else
        let st1 := (parser_advance st).2
        if (parser_peek st1).type ≠ .lparen then (none, parser_error st1)
        else
          let st2 := (parser_advance st1).2
          let (args?, st3) :=
            if (parser_peek st2).type ≠ .rparen then parse_call_args fuel st2 []
            else (some [], st2)
          match args? with
          | none => (none, st3)
          | some args =>
            if (parser_peek st3).type ≠ .rparen then (none, parser_error st3)
            else
              let st4 := (parser_advance st3).2
              (mk_node st4 (.func_call name_tok.lexeme args), st4)

/-- The `while (peek != '}') parse_statement` accumulation loop that
appears verbatim in `parse_func_def` (parser.c:743), `parse_if_statement`
(parser.c:977 and 1057) and the block branch of `parse_statement`
(parser.c:1152). -/
def parse_stmt_seq : Nat → pstate_t → List ast_node_t →
    Option (List ast_node_t) × pstate_t
  | 0, st, _ => (none, st)
  | fuel + 1, st, acc =>
    if (parser_peek st).type = .rbrace then (some acc, st)
    else
      let (s?, st1) := parse_statement fuel st
      if st1.err then (none, st1)
      else
        match s? with
        | none => (some acc, st1)
        | some s => parse_stmt_seq fuel st1 (acc ++ [s])

/-- `parse_func_def` (parser.c:650). -/
def parse_func_def : Nat → pstate_t → Option ast_node_t × pstate_t
  | 0, st => (none, st)
  | fuel + 1, st =>
    if st.err then (none, st)
    else
      let rt_tok := parser_peek st
      if rt_tok.type ≠ .keyword then (none, parser_error st)
      else
        let st1 := (parser_advance st).2
        let name_tok := parser_peek st1
        if name_tok.type ≠ .ident then (none, parser_error st1)
        else
          let st2 := (parser_advance st1).2
          let (params, st3) := parse_param_list st2
          if st3.err then (none, st3)
          else if (parser_peek st3).type = .semi then
            let st4 := (parser_advance st3).2
            (mk_node st4 (.func_def name_tok.lexeme rt_tok.lexeme params none true), st4)
          else if (parser_peek st3).type ≠ .lbrace then (none, parser_error st3)
          else
            let st4 := (parser_advance st3).2
            let (stmts?, st5) := parse_stmt_seq fuel st4 []
            match stmts? with
            | none => (none, st5)
            | some stmts =>
              if (parser_peek st5).type ≠ .rbrace then (none, parser_error st5)
              else
                let st6 := (parser_advance st5).2
                (mk_node st6
                  (.func_def name_tok.lexeme rt_tok.lexeme params
                    (some (.block stmts)) false), st6)

/-- `parse_if_statement` (parser.c:931).  Note the else-if branch builds
the nested arm with a recursive `parse_if_statement` call, i.e. a
`NODE_IF`, never a `NODE_ELSEIF`. -/
def parse_if_statement : Nat → pstate_t → Option ast_node_t × pstate_t
  | 0, st => (none, st)
  | fuel + 1, st =>
    if st.err then (none, st)
    else
      let tok := parser_peek st
      if ¬(tok.type = .keyword ∧ kw_eq tok ("if")) then (none, parser_error st)
      else
        let st1 := (parser_advance st).2
        if (parser_peek st1).type ≠ .lparen then (none, parser_error st1)
        else
          let st2 := (parser_advance st1).2
          let (cond?, st3) := parse_expression fuel 0 st2
          match cond? with
          | none => (none, parser_error st3)
          | some cond =>
            if st3.err then (none, parser_error st3)
            else if (parser_peek st3).type ≠ .rparen then (none, parser_error st3)
            else
              let st4 := (parser_advance st3).2
              if (parser_peek st4).type ≠ .lbrace then (none, parser_error st4)
              else
                let st5 := (parser_advance st4).2
                let (stmts?, st6) := parse_stmt_seq fuel st5 []
                match stmts? with
                | none => (none, st6)
                | some stmts =>
                  if (parser_peek st6).type ≠ .rbrace then (none, parser_error st6)
                  else
                    let st7 := (parser_advance st6).2
                    let then_block : ast_node_t := .block stmts
                    let nt := parser_peek st7
                    if nt.type = .keyword ∧ kw_eq nt ("else") then
                      let st8 := (parser_advance st7).2
                      let nt2 := parser_peek st8
                      if nt2.type = .keyword ∧ kw_eq nt2 ("if") then
                        let (eb?, st9) := parse_if_statement fuel st8
                        if st9.err then (none, st9)
                        else (mk_node st9 (.if_stmt cond then_block eb?), st9)
                      else if nt2.type = .lbrace then
                        let st9 := (parser_advance st8).2
                        let (estmts?, st10) := parse_stmt_seq fuel st9 []
                        match estmts? with
                        | none => (none, st10)
                        | some estmts =>
                          if (parser_peek st10).type ≠ .rbrace then (none, parser_error st10)
                          else
                            let st11 := (parser_advance st10).2
                            (mk_node st11
                              (.if_stmt cond then_block
                                (some (.else_stmt (.block estmts)))), st11)
                      else (none, parser_error st8)
                    else (mk_node st7 (.if_stmt cond then_block none), st7)

/-- `parse_statement` (parser.c:1139). -/
def parse_statement : Nat → pstate_t → Option ast_node_t × pstate_t
  | 0, st => (none, st)
  | fuel + 1, st =>
    if st.err then (none, st)
    else
      let tok := parser_peek st
      if tok.type = .lbrace then
        let st1 := (parser_advance st).2
        let (stmts?, st2) := parse_stmt_seq fuel st1 []
        match stmts? with
        | none => (none, st2)
        | some stmts =>
          if (parser_peek st2).type ≠ .rbrace then (none, parser_error st2)
          else
            let st3 := (parser_advance st2).2
            (mk_node st3 (.block stmts), st3)
      else if tok.type = .keyword ∧ kw_eq tok ("return") then
        let st1 := (parser_advance st).2
        let (e?, st2) := parse_expression fuel 0 st1
        if st2.err then (none, st2)
        else if (parser_peek st2).type ≠ .semi then (none, parser_error st2)
        else
          let st3 := (parser_advance st2).2
          (mk_node st3 (.return_stmt e?), st3)
      else if tok.type = .keyword ∧ kw_eq tok ("import") then
        let st1 := (parser_advance st).2
        if (parser_peek st1).type ≠ .ident then (none, parser_error st1)
        else
          let cnt := 1 + count_dotted_go (st1.tokens.length + 1) st1.tokens st1.pos
          let (mod?, st2) := build_module cnt st1 ("")
          match mod? with
          | none => (none, st2)
          | some m =>
            if (parser_peek st2).type ≠ .semi then (none, parser_error st2)
            else
              let st3 := (parser_advance st2).2
              (mk_node st3 (.import_stmt m), st3)
      else if tok.type = .keyword then
        let st1 := (parser_advance st).2
        let name_tok := parser_peek st1
        if name_tok.type ≠ .ident then (none, parser_error st1)
        else
          let st2 := (parser_advance st1).2
          if (parser_peek st2).type = .lparen then
            parse_func_def fuel { st2 with pos := st2.pos - 2 }
          else if (parser_peek st2).type = .assign then
            let st3 := (parser_advance st2).2
            let (v?, st4) := parse_expression fuel 0 st3
            match v? with
            | none => (none, parser_error st4)
            | some v =>
              if st4.err then (none, parser_error st4)
              else if (parser_peek st4).type ≠ .semi then (none, parser_error st4)
              else
                let st5 := (parser_advance st4).2
                (mk_node st5 (.assign name_tok.lexeme (some tok.lexeme) (some v)), st5)
          else (none, parser_error st2)
      else if tok.type = .ident then
        let st1 := (parser_advance st).2
        if (parser_peek st1).type = .lparen then
          let (call?, st2) := parse_func_call fuel { st1 with pos := st1.pos - 1 }
          if st2.err then (none, st2)
          else if (parser_peek st2).type ≠ .semi then (none, parser_error st2)
          else (call?, (parser_advance st2).2)
        else if (parser_peek st1).type = .assign then
          let st2 := (parser_advance st1).2
          let (v?, st3) := parse_expression fuel 0 st2
          match v? with
          | none => (none, parser_error st3)
          | some v =>
            if st3.err then (none, parser_error st3)
            else if (parser_peek st3).type ≠ .semi then (none, parser_error st3)
            else
              let st4 := (parser_advance st3).2
              (mk_node st4 (.assign tok.lexeme none (some v)), st4)
        else (none, parser_error st1)
      else (none, parser_error st)

end

/- ========================== -/
/- ast_gen                    -/
/- ========================== -/

/-- The top-level accumulation loop of `ast_gen` (parser.c:1403):
statements until eof, each required to be a FuncDef or Import. -/
def ast_gen_go : Nat → pstate_t → List ast_node_t →
    Option (List ast_node_t) × pstate_t
  | 0, st, _ => (none, st)
  | fuel + 1, st, acc =>
    if (parser_peek st).type = .eof then (some acc, st)
    else
      let (s?, st1) := parse_statement fuel st
      if st1.err then (none, st1)
      else
        match s? with
        | none => (some acc, st1)
        | some s =>
          match s with
          | .func_def n r p b d => ast_gen_go fuel st1 (acc ++ [.func_def n r p b d])
          | .import_stmt m => ast_gen_go fuel st1 (acc ++ [.import_stmt m])
          | _ => (none, parser_error st1)

/-- `ast_gen` (parser.c:1394): reset the sticky flag, run the loop, and
build the Program (returning NULL on any recorded error).  The final
parser state is returned alongside so theorems can observe the flag. -/
def ast_gen (fuel : Nat) (tokens : List token_t) : Option ast_node_t × pstate_t :=
  match ast_gen_go fuel { tokens := tokens, pos := 0, err := false } [] with
  | (none, st) => (none, st)
  | (some acc, st) =>
    if (parser_peek st).type ≠ .eof then (none, parser_error st)
    else (mk_node st (.program acc), st)

/- ===================== -/
/- Code generator        -/
/- ===================== -/

/-- `gen_result_t` (codegen.c:18): the value text (NULL = `none`) and its
IR type character (`0` = `'\x00'`). -/
structure gen_result_t where
  val : Option String
  qbe_type : Char
deriving DecidableEq, Repr

/-- A `sym_entry_t` (codegen.c:30). -/
structure sym_entry_t where
  name : String
  ptr : String
  vtype : Char
deriving DecidableEq, Repr

/-- A `str_info_t` string-pool entry (codegen.c:51); `len` is
`value.length`. -/
structure str_info_t where
  value : String
  gname : String
deriving DecidableEq, Repr

/-- `codegen_context_t` (codegen.c:59).  The `FILE* out` becomes the list
of emitted chunks, in emission order; `diags` records the messages the C
code prints through the diagnostic sink (which never aborts). -/
structure codegen_context_t where
  out : List String
  current_scope : List (List sym_entry_t)
  funcs : List (String × ast_node_t)
  strings : List str_info_t
  temp_count : Nat
  label_count : Nat
  str_count : Nat
  diags : List String
deriving Repr

/-- The empty context (`static codegen_context_t ctx = {0}` after
`free_context`). -/
def ctx0 : codegen_context_t :=
  { out := [], current_scope := [], funcs := [], strings := [],
    temp_count := 0, label_count := 0, str_count := 0, diags := [] }

/-- `emit` (codegen.c:102): append a formatted chunk to the output. -/
def emit (s : String) (ctx : codegen_context_t) : codegen_context_t :=
  { ctx with out := ctx.out ++ [s] }

/-- Record a printed diagnostic (`ERROR_FATAL` / `ERROR_WARN`, which in C
only write to stderr). -/
def diag (m : String) (ctx : codegen_context_t) : codegen_context_t :=
  { ctx with diags := ctx.diags ++ [m] }

/-- `new_temp` (codegen.c:110). -/
def new_temp (ctx : codegen_context_t) : String × codegen_context_t :=
  ("%t" ++ toString ctx.temp_count, { ctx with temp_count := ctx.temp_count + 1 })

/-- `new_label` (codegen.c:119). -/
def new_label (ctx : codegen_context_t) : String × codegen_context_t :=
  ("@l" ++ toString ctx.label_count, { ctx with label_count := ctx.label_count + 1 })

/-- `str_to_qbe_type` (codegen.c:128): the source-type-name to IR-type
mapping.  The second component records whether the "Unknown type" fatal
diagnostic fires (after which the C function still returns `'w'` and the
caller continues, since the sink only prints). -/
def str_to_qbe_type : Option String → Char × Bool
  | none => ('w', false)
  | some s =>
    if s = "int" then ('w', false)
    else if s = "float" then ('d', false)
    else if s = "string" then ('l', false)
    else ('w', true)

/-- `str_to_qbe_type` as used inside the generator, recording the
diagnostic in the context. -/
def str_to_qbe_type_c (s : Option String) (ctx : codegen_context_t) :
    Char × codegen_context_t :=
  let (c, fatal) := str_to_qbe_type s
  (c, if fatal then diag ("Unknown type") ctx else ctx)

/-- `push_scope` (codegen.c:146). -/
def push_scope (ctx : codegen_context_t) : codegen_context_t :=
  { ctx with current_scope := [] :: ctx.current_scope }

/-- `pop_scope` (codegen.c:169). -/
def pop_scope (ctx : codegen_context_t) : codegen_context_t :=
  { ctx with current_scope := ctx.current_scope.tail }

/-- `add_sym` (codegen.c:176): prepend to the innermost scope. -/
def add_sym (name ptr : String) (vtype : Char) (ctx : codegen_context_t) :
    codegen_context_t :=
  match ctx.current_scope with
  | [] => ctx
  | sc :: rest =>
    { ctx with current_scope :=
        ({ name := name, ptr := ptr, vtype := vtype } :: sc) :: rest }

/-- `find_sym` (codegen.c:188): innermost-out scope walk; failure prints
the "Undefined variable" fatal and yields a NULL `var_info_t`. -/
def find_sym (name : String) (ctx : codegen_context_t) :
    Option (String × Char) × codegen_context_t :=
  match ctx.current_scope.findSome? (fun sc => sc.find? (fun e => e.name == name)) with
  | some e => (some (e.ptr, e.vtype), ctx)
  | none => (none, diag ("Undefined variable") ctx)

/-- `find_func` (codegen.c:202). -/
def find_func (name : String) (ctx : codegen_context_t) :
    Option ast_node_t × codegen_context_t :=
  match ctx.funcs.find? (fun f => f.1 == name) with
  | some f => (some f.2, ctx)
  | none => (none, diag ("Function not found") ctx)

/- ===================== -/
/- String pool           -/
/- ===================== -/

/-- The string-pool fragment of the context mutated by
`collect_strings`. -/
structure strpool_t where
  strings : List str_info_t
  str_count : Nat
deriving DecidableEq, Repr

/-- The `NODE_STRING` case of `collect_strings` (codegen.c:268): skip a
byte sequence already interned (`si->len == len && memcmp == 0`),
otherwise prepend a fresh entry named by the monotonic counter. -/
def intern_string (st : strpool_t) (value : String) : strpool_t :=
  if st.strings.any (fun si => si.value.length == value.length && si.value == value) then st
  else
    { strings := { value := value, gname := "$str" ++ toString st.str_count } :: st.strings,
      str_count := st.str_count + 1 }

/-- `collect_strings` (codegen.c:227): pre-order walk interning string
literals.  The walk descends through exactly the node kinds the C switch
recurses into; in particular the `default:` arm means `NODE_BINOP`
operands (and every other unlisted kind) are **not** walked. -/
def collect_strings (st : strpool_t) (a : ast_node_t) : strpool_t :=
  match a with
  | .program fdefs =>
    fdefs.attach.foldl (fun s c => collect_strings s c.1) st
  | .func_def _ _ _ root is_decl =>
    if is_decl then st
    else
      match root with
      | none => st
      | some r => collect_strings st r
  | .block stmts =>
    stmts.attach.foldl (fun s c => collect_strings s c.1) st
  | .return_stmt e =>
    match e with
    | none => st
    | some x => collect_strings st x
  | .func_call _ args =>
    args.attach.foldl (fun s c => collect_strings s c.1) st
  | .assign _ _ v =>
    match v with
    | none => st
    | some x => collect_strings st x
  | .if_stmt c t e =>
    let s1 := collect_strings st c
    let s2 := collect_strings s1 t
    match e with
    | none => s2
    | some x => collect_strings s2 x
  | .elseif_stmt c t e =>
    let s1 := collect_strings st c
    let s2 := collect_strings s1 t
    match e with
    | none => s2
    | some x => collect_strings s2 x
  | .else_stmt b => collect_strings st b
  | .string_lit v => intern_string st v
  | _ => st
termination_by sizeOf a
decreasing_by
  all_goals simp_wf
  all_goals try omega
  all_goals have h9 := List.sizeOf_lt_of_mem c.2
  all_goals omega

/- ===================== -/
/- Expression lowering   -/
/- ===================== -/

/-- `gen_number` (codegen.c:299).  Integer literals print in decimal with
IR type `'l'`; float literals print as `d_` followed by the `%g` rendering
of the value, modelled by the raw lexeme, with IR type `'d'`. -/
def gen_number : ast_node_t → gen_result_t
  | .number_int v => { val := some (toString v), qbe_type := 'l' }
  | .number_float raw => { val := some ("d_" ++ raw), qbe_type := 'd' }
  | _ => { val := none, qbe_type := '\x00' }

/-- `gen_string` (codegen.c:323): look the literal up in the interned
pool; a miss prints "String not collected" and yields NULL. -/
def gen_string (value : String) (ctx : codegen_context_t) :
    gen_result_t × codegen_context_t :=
  match ctx.strings.find? (fun si => si.value.length == value.length && si.value == value) with
  | some si => ({ val := some si.gname, qbe_type := 'l' }, ctx)
  | none => ({ val := none, qbe_type := '\x00' }, diag ("String not collected") ctx)

/-- `gen_ident` (codegen.c:344): resolve through the scope stack; the
result is the stored address text with the stored kind. -/
def gen_ident (name : String) (ctx : codegen_context_t) :
    gen_result_t × codegen_context_t :=
  match find_sym name ctx with
  | (some (ptr, k), ctx1) => ({ val := some ptr, qbe_type := k }, ctx1)
  | (none, ctx1) => ({ val := none, qbe_type := '\x00' }, ctx1)

/-- The `ops` mnemonic table of `gen_binop` (codegen.c:367): token,
mnemonic, `is_comp`. -/
def binop_table : List (token_type_t × String × Bool) :=
  [(.plus, "add", false), (.minus, "sub", false), (.star, "mul", false),
   (.slash, "div", false), (.percent, "rem", false), (.eq, "ceq", true),
   (.neq, "cne", true), (.lt, "slt", true), (.lte, "sle", true),
   (.gt, "sgt", true), (.gte, "sge", true)]

/-- `gen_binop` (codegen.c:357).  Note the two emit forms: comparisons
emit `%t =w <mnemonic><otype> l, r` using the suffixed `full_op`, while
arithmetic emits `%t =<otype> <mnemonic> l, r` using the **bare**
`opstr`. -/
def gen_binop (op : token_type_t) (left right : gen_result_t)
    (ctx : codegen_context_t) : gen_result_t × codegen_context_t :=
  match left.val, right.val with
  | some lv, some rv =>
    match binop_table.find? (fun e => e.1 = op) with
    | none =>
      ({ val := none, qbe_type := '\x00' }, diag ("Unimplemented binary operator") ctx)
    | some e =>
      let opstr := e.2.1
      let is_comp := e.2.2
      let otype := left.qbe_type
      let (tmp, ctx1) := new_temp ctx
      if is_comp then
        ({ val := some tmp, qbe_type := 'w' },
         emit (tmp ++ " =w " ++ opstr ++ String.singleton otype ++ " " ++
               lv ++ ", " ++ rv ++ "\n") ctx1)
      else
        ({ val := some tmp, qbe_type := otype },
         emit (tmp ++ " =" ++ String.singleton otype ++ " " ++ opstr ++ " " ++
               lv ++ ", " ++ rv ++ "\n") ctx1)
  | _, _ => ({ val := none, qbe_type := '\x00' }, ctx)

/-- The argument-evaluation loop of `gen_func_call` (codegen.c:446):
evaluate left to right, aborting (NULL result) as soon as one fails. -/
def gen_call_eval_args (genE : ast_node_t → codegen_context_t →
      gen_result_t × codegen_context_t) :
    List ast_node_t → codegen_context_t →
    Option (List gen_result_t) × codegen_context_t
  | [], ctx => (some [], ctx)
  | a :: rest, ctx =>
    let (r, ctx1) := genE a ctx
    match r.val with
    | none => (none, ctx1)
    | some _ =>
      match gen_call_eval_args genE rest ctx1 with
      | (none, ctx2) => (none, ctx2)
      | (some rs, ctx2) => (some (r :: rs), ctx2)

/-- The argument-emission loop of `gen_func_call` (codegen.c:468): pick
each argument's IR type from the matching non-variadic parameter when the
callee is known and not variadic, else from the argument's own inferred
type (default `'w'`), and emit the comma-separated list. -/
def gen_call_emit_args (params : List param_node_t) (param_count : Nat)
    (is_variadic : Bool) :
    Nat → List gen_result_t → codegen_context_t → codegen_context_t
  | _, [], ctx => ctx
  | i, r :: rest, ctx =>
    let ptype :=
      if params ≠ [] ∧ i < param_count ∧ is_variadic = false then
        (str_to_qbe_type (params.getD i { name := "", name_len := 0,
                                          type := none, is_variadic := false }).type).1
      else if r.qbe_type ≠ '\x00' then r.qbe_type
      else 'w'
    let ctx1 := emit (String.singleton ptype ++ " " ++ r.val.getD ("")) ctx
    let ctx2 := if rest = [] then ctx1 else emit (", ") ctx1
    gen_call_emit_args params param_count is_variadic (i + 1) rest ctx2

/-- The parameter-list header loop of `gen_func_def` (codegen.c:697). -/
def emit_param_list (ctx : codegen_context_t) : List param_node_t → codegen_context_t
  | [] => ctx
  | p :: rest =>
    let ctx1 :=
      if p.is_variadic then
        let c := emit ("...") ctx
        if rest = [] then c else emit (", ") c
      else
        let c := emit (String.singleton (str_to_qbe_type p.type).1 ++ " %" ++ p.name) ctx
        if rest = [] then c else emit (", ") c
    emit_param_list ctx1 rest

/-- The parameter-registration loop of `gen_func_def` (codegen.c:718):
bind each leading non-variadic parameter to the bare register `%name`. -/
def add_param_syms (ctx : codegen_context_t) : List param_node_t → codegen_context_t
  | [] => ctx
  | p :: rest =>
    if p.is_variadic then ctx
    else
      let (ptype, ctx1) := str_to_qbe_type_c p.type ctx
      add_param_syms (add_sym p.name ("%" ++ p.name) ptype ctx1) rest

mutual

/-- `gen_expr` (codegen.c:572): dispatch on the node kind; kinds with no
handler print "Unimplemented expression type" and yield NULL. -/
def gen_expr : Nat → ast_node_t → codegen_context_t →
    gen_result_t × codegen_context_t
  | 0, _, ctx => ({ val := none, qbe_type := '\x00' }, ctx)
  | fuel + 1, a, ctx =>
    match a with
    | .number_int v => (gen_number (.number_int v), ctx)
    | .number_float r => (gen_number (.number_float r), ctx)
    | .string_lit v => gen_string v ctx
    | .ident n => gen_ident n ctx
    | .binop op l r => gen_binop_node fuel op l r ctx
    | .func_call n args => gen_func_call fuel n args ctx
    | .assign n t v => gen_assign fuel n t v ctx
    | _ => ({ val := none, qbe_type := '\x00' }, diag ("Unimplemented expression type") ctx)

/-- `gen_binop_node` (codegen.c:412). -/
def gen_binop_node : Nat → token_type_t → ast_node_t → ast_node_t →
    codegen_context_t → gen_result_t × codegen_context_t
  | 0, _, _, _, ctx => ({ val := none, qbe_type := '\x00' }, ctx)
  | fuel + 1, op, l, r, ctx =>
    let (lres, ctx1) := gen_expr fuel l ctx
    let (rres, ctx2) := gen_expr fuel r ctx1
    gen_binop op lres rres ctx2

/-- `gen_func_call` (codegen.c:419). -/
def gen_func_call : Nat → String → List ast_node_t → codegen_context_t →
    gen_result_t × codegen_context_t
  | 0, _, _, ctx => ({ val := none, qbe_type := '\x00' }, ctx)
  | fuel + 1, name, args, ctx =>
    let (func?, ctx1) := find_func name ctx
    let (ret_type, ctx2) :=
      match func? with
      | some (.func_def _ rt _ _ _) => str_to_qbe_type_c (some rt) ctx1
      | some _ => str_to_qbe_type_c none ctx1
      | none => ('l', ctx1)
    let params :=
      match func? with
      | some (.func_def _ _ ps _ _) => ps
      | _ => []
    let is_variadic := params.any (fun p => p.is_variadic)
    let param_count := (params.takeWhile (fun p => ¬p.is_variadic)).length
    match gen_call_eval_args (fun a c => gen_expr fuel a c) args ctx2 with
    | (none, ctx3) => ({ val := none, qbe_type := '\x00' }, ctx3)
    | (some ress, ctx3) =>
      if ret_type ≠ '\x00' then
        let (tmp, ctx4) := new_temp ctx3
        let ctx5 := emit (tmp ++ " =" ++ String.singleton ret_type ++
                          " call $" ++ name ++ " (") ctx4
        let ctx6 := gen_call_emit_args params param_count is_variadic 0 ress ctx5
        ({ val := some tmp, qbe_type := ret_type }, emit (")\n") ctx6)
      else
        let ctx5 := emit ("call $" ++ name ++ " (") ctx3
        let ctx6 := gen_call_emit_args params param_count is_variadic 0 ress ctx5
        ({ val := none, qbe_type := '\x00' }, emit (")\n") ctx6)

/-- `gen_assign` (codegen.c:503): definitions allocate a slot, bind it,
and store; reassignments resolve and store. -/
def gen_assign : Nat → String → Option String → Option ast_node_t →
    codegen_context_t → gen_result_t × codegen_context_t
  | 0, _, _, _, ctx => ({ val := none, qbe_type := '\x00' }, ctx)
  | fuel + 1, name, ty?, value?, ctx =>
    let (val, ctx1) :=
      match value? with
      | some v => gen_expr fuel v ctx
      | none => ({ val := none, qbe_type := '\x00' }, ctx)
    if value?.isSome ∧ val.val = none then
      ({ val := none, qbe_type := '\x00' }, ctx1)
    else
      match ty? with
      | some ty =>
        let (vtype, ctx2) := str_to_qbe_type_c (some ty) ctx1
        let (ptr, ctx3) := new_temp ctx2
        let alloc_size := if vtype = 'w' ∨ vtype = 's' then 4 else 8
        let ctx4 := emit (ptr ++ " =l alloc" ++ toString alloc_size ++ " 1\n") ctx3
        let ctx5 := add_sym name ptr vtype ctx4
        match value? with
        | some _ =>
          let ctx6 := emit ("store" ++ String.singleton vtype ++ " " ++
                            val.val.getD ("") ++ ", " ++ ptr ++ "\n") ctx5
          ({ val := val.val, qbe_type := vtype }, ctx6)
        | none =>
          let ctx6 := emit ("store" ++ String.singleton vtype ++ " 0, " ++ ptr ++ "\n") ctx5
          ({ val := some ("0"), qbe_type := vtype }, ctx6)
      | none =>
        match find_sym name ctx1 with
        | (none, ctx2) => ({ val := none, qbe_type := '\x00' }, ctx2)
        | (some (ptr, k), ctx2) =>
          let ctx3 := emit ("store" ++ String.singleton k ++ " " ++
                            val.val.getD ("") ++ ", " ++ ptr ++ "\n") ctx2
          ({ val := val.val, qbe_type := k }, ctx3)

/-- `gen_return` (codegen.c:587).  When the value expression fails,
nothing is emitted at all (no `ret`). -/
def gen_return : Nat → Option ast_node_t → codegen_context_t → codegen_context_t
  | 0, _, ctx => ctx
  | fuel + 1, e?, ctx =>
    match e? with
    | some e =>
      let (v, ctx1) := gen_expr fuel e ctx
      match v.val with
      | some s => emit ("ret " ++ s ++ "\n") ctx1
      | none => ctx1
    | none => emit ("ret\n") ctx

/-- `gen_conditional` (codegen.c:604).  The outermost call
(`cont? = none`) allocates and finally emits the shared continuation
label; recursive calls reuse it.  The else-branch dispatch matches only
`NODE_ELSEIF` and `NODE_ELSE`: any other node kind there (in particular
the `NODE_IF` the parser nests for `else if`) generates nothing. -/
def gen_conditional : Nat → ast_node_t → Option String → codegen_context_t →
    codegen_context_t
  | 0, _, _, ctx => ctx
  | fuel + 1, node, cont?, ctx =>
    let fields : Option (ast_node_t × ast_node_t × Option ast_node_t) :=
      match node with
      | .if_stmt c t e => some (c, t, e)
      | .elseif_stmt c t e => some (c, t, e)
      | _ => none
    match fields with
    | none => ctx
    | some (cond_node, then_node, else?) =>
      let manage_cont := cont?.isNone
      let (cont_lab, ctx1) :=
        match cont? with
        | some c => (c, ctx)
        | none => new_label ctx
      let (cond, ctx2) := gen_expr fuel cond_node ctx1
      match cond.val with
      | none => ctx2
      | some cv =>
        let (then_lab, ctx3) := new_label ctx2
        let (next_lab, ctx4) := new_label ctx3
        let ctx5 := emit ("jnz " ++ cv ++ ", " ++ then_lab ++ ", " ++ next_lab ++ "\n") ctx4
        let ctx6 := emit (then_lab ++ "\n") ctx5
        let ctx7 := gen_block fuel then_node ctx6
        let ctx8 := emit ("jmp " ++ cont_lab ++ "\n") ctx7
        let ctx9 := emit (next_lab ++ "\n") ctx8
        let ctxA :=
          match else? with
          | some eb =>
            match eb with
            | .elseif_stmt c t e =>
              gen_conditional fuel (.elseif_stmt c t e) (some cont_lab) ctx9
            | .else_stmt b =>
              emit ("jmp " ++ cont_lab ++ "\n") (gen_block fuel b ctx9)
            | _ => ctx9
          | none => ctx9
        if manage_cont then emit (cont_lab ++ "\n") ctxA else ctxA

/-- `gen_stmt` (codegen.c:645). -/
def gen_stmt : Nat → ast_node_t → codegen_context_t → codegen_context_t
  | 0, _, ctx => ctx
  | fuel + 1, node, ctx =>
    match node with
    | .if_stmt c t e => gen_conditional fuel (.if_stmt c t e) none ctx
    | .import_stmt _ => ctx
    | .return_stmt e => gen_return fuel e ctx
    | .func_call n args => (gen_func_call fuel n args ctx).2
    | .assign n t v => (gen_assign fuel n t v ctx).2
    | .block stmts => gen_block fuel (.block stmts) ctx
    | _ => diag ("Unimplemented statement type") ctx

/-- The statement loop of `gen_block` (codegen.c:676). -/
def gen_stmts : Nat → List ast_node_t → codegen_context_t → codegen_context_t
  | 0, _, ctx => ctx
  | fuel + 1, stmts, ctx =>
    match stmts with
    | [] => ctx
    | s :: rest => gen_stmts fuel rest (gen_stmt fuel s ctx)

/-- `gen_block` (codegen.c:671): push a scope, lower the statements, pop
the scope; non-block nodes generate nothing. -/
def gen_block : Nat → ast_node_t → codegen_context_t → codegen_context_t
  | 0, _, ctx => ctx
  | fuel + 1, node, ctx =>
    match node with
    | .block stmts => pop_scope (gen_stmts fuel stmts (push_scope ctx))
    | _ => ctx

end

/-- `gen_func_def` (codegen.c:681): emit the header (`export` only for
`main`), register the parameters as bare registers, lower the body, close
the brace. -/
def gen_func_def (fuel : Nat) (node : ast_node_t) (ctx : codegen_context_t) :
    codegen_context_t :=
  match node with
  | .func_def name rt params root is_decl =>
    if is_decl then ctx
    else
      let (ret_type, ctx1) := str_to_qbe_type_c (some rt) ctx
      let ctx2 := if name = "main" then emit ("export ") ctx1 else ctx1
      let ctx3 := emit ("function ") ctx2
      let ctx4 :=
        if ret_type ≠ '\x00' then emit (String.singleton ret_type ++ " ") ctx3 else ctx3
      let ctx5 := emit ("$" ++ name ++ " (") ctx4
      let ctx6 := emit_param_list ctx5 params
      let ctx7 := emit (") \x7b\n@start\n") ctx6
      let ctx8 := push_scope ctx7
      let ctx9 := add_param_syms ctx8 (params.takeWhile (fun p => ¬p.is_variadic))
      let ctxA :=
        match root with
        | some r => gen_block fuel r ctx9
        | none => ctx9
      emit ("\x7d\n") (pop_scope ctxA)
  | _ => ctx

/-- `gen_program` (codegen.c:738). -/
def gen_program (fuel : Nat) (node : ast_node_t) (ctx : codegen_context_t) :
    codegen_context_t :=
  match node with
  | .program fdefs => fdefs.foldl (fun c f => gen_func_def fuel f c) ctx
  | _ => ctx

/-- One `data` entry of the pool-emission loop in `codegen_generate`
(codegen.c:787). -/
def data_line (si : str_info_t) : String :=
  "data " ++ si.gname ++ " = \x7b " ++
  String.join (si.value.data.map (fun c => "b " ++ toString c.toNat ++ ", ")) ++
  "b 0 \x7d\n"

/-- The string pool `codegen_generate` builds for a program
(codegen.c:786). -/
def string_pool (root : ast_node_t) : strpool_t :=
  collect_strings { strings := [], str_count := 0 } root

/-- The function-table registration loop of `codegen_generate`
(codegen.c:794): every top-level node is registered, prepending, keyed by
the first string field of its variant (for the Import nodes the parser
admits at top level, the C code reads the `func_def` union member of the
node, whose first pointer aliases the module name). -/
def register_funcs : List ast_node_t → List (String × ast_node_t) →
    List (String × ast_node_t)
  | [], acc => acc
  | f :: rest, acc =>
    match f with
    | .func_def n rt ps root d => register_funcs rest ((n, .func_def n rt ps root d) :: acc)
    | .import_stmt m => register_funcs rest ((m, .import_stmt m) :: acc)
    | _ => register_funcs rest acc

/-- The in-memory emission portion of `codegen_generate` (codegen.c:786
- 807): intern the pool, emit its `data` entries, register the function
table, then lower every function definition.  The resulting context's
`out` is the text written to the `.qbe` file. -/
def codegen_emit (fuel : Nat) (root : ast_node_t) : codegen_context_t :=
  match root with
  | .program fdefs =>
    let pool := string_pool (.program fdefs)
    let ctx1 := { ctx0 with strings := pool.strings, str_count := pool.str_count }
    let ctx2 := pool.strings.foldl (fun c si => emit (data_line si) c) ctx1
    let ctx3 := { ctx2 with funcs := register_funcs fdefs [] }
    gen_program fuel (.program fdefs) ctx3
  | _ => diag ("Root node must be a program") ctx0

/-- The whole `.qbe` text for a program. -/
def codegen_output (fuel : Nat) (root : ast_node_t) : String :=
  String.join (codegen_emit fuel root).out

/- ================================= -/
/- codegen_generate file side effect -/
/- ================================= -/

/-- The externally visible file-system / process actions of
`codegen_generate` (codegen.c:763). -/
inductive fs_action_t where
  | write_qbe
  | run_qbe
  | run_cc
  | unlink_qbe
  | unlink_asm
deriving DecidableEq, Repr

/-- The file/process skeleton of `codegen_generate` (codegen.c:763-846):
given whether the `.qbe` output stream opens and whether the two child
processes (`qbe`, `clang`) exit zero, the exit code and the ordered list
of file-system actions performed.  The IR text written between `fopen`
and `fclose` is `codegen_output`; allocation failures are not modelled.
The two `unlink` calls on the success path are commented out in the
source (codegen.c:840-841), so the success path performs no unlink. -/
def codegen_generate_fs (fopen_ok qbe_ok cc_ok : Bool) : Nat × List fs_action_t :=
  if ¬fopen_ok then (1, [])
  else if ¬qbe_ok then (1, [.write_qbe, .run_qbe])
  else if ¬cc_ok then (1, [.write_qbe, .run_qbe, .run_cc, .unlink_qbe, .unlink_asm])
  else (0, [.write_qbe, .run_qbe, .run_cc])

/- ================================ -/
/- Specification-side definitions   -/
/- ================================ -/

/-- The pre-order string-literal occurrence list along the walk that
`collect_strings` performs: occurrences in source order, descending
through the same node kinds as the collector (so, as its `default:` arm
forces, not through binary-operator operands). -/
def string_occurrences (a : ast_node_t) : List String :=
  match a with
  | .program fdefs =>
    fdefs.attach.foldl (fun acc c => acc ++ string_occurrences c.1) []
  | .func_def _ _ _ root is_decl =>
    if is_decl then []
    else
      match root with
      | none => []
      | some r => string_occurrences r
  | .block stmts =>
    stmts.attach.foldl (fun acc c => acc ++ string_occurrences c.1) []
  | .return_stmt e =>
    match e with
    | none => []
    | some x => string_occurrences x
  | .func_call _ args =>
    args.attach.foldl (fun acc c => acc ++ string_occurrences c.1) []
  | .assign _ _ v =>
    match v with
    | none => []
    | some x => string_occurrences x
  | .if_stmt c t e =>
    string_occurrences c ++ string_occurrences t ++
      (match e with
       | none => []
       | some x => string_occurrences x)
  | .elseif_stmt c t e =>
    string_occurrences c ++ string_occurrences t ++
      (match e with
       | none => []
       | some x => string_occurrences x)
  | .else_stmt b => string_occurrences b
  | .string_lit v => [v]
  | _ => []
termination_by sizeOf a
decreasing_by
  all_goals simp_wf
  all_goals try omega
  all_goals have h9 := List.sizeOf_lt_of_mem c.2
  all_goals omega

/-- One step of the pool the spec describes: keep the first encounter of
each distinct byte sequence, appending in encounter order, named by the
monotonic `$strN` counter. -/
def pool_step (acc : List str_info_t) (v : String) : List str_info_t :=
  if acc.any (fun si => si.value = v) then acc
  else acc ++ [{ value := v, gname := "$str" ++ toString acc.length }]

/-- The pool in the spec's words: first-encounter deduplication of the
occurrence list, in encounter order. -/
def pool_spec (occs : List String) : List str_info_t :=
  occs.foldl pool_step []

/- ================================ -/
/- Concrete inputs for the claims   -/
/- ================================ -/

/-- Token vector of a source string under the `src/` operator table. -/
def toks_of (s : String) : List token_t := lex_all 400 operators (lexer_init s)

/-- Token vector under the spec-modelled table (needed only where `...`
occurs). -/
def toks_of_spec (s : String) : List token_t := lex_all 400 operators_spec (lexer_init s)

/-- Initial parser state over a source string (src table). -/
def pst_of (s : String) : pstate_t := { tokens := toks_of s, pos := 0, err := false }

/-- Initial parser state over a source string (spec-modelled table). -/
def pst_of_spec (s : String) : pstate_t :=
  { tokens := toks_of_spec s, pos := 0, err := false }

/-- The if / else-if / else chain of the spec's end-to-end scenario 4. -/
def c3_src : String :=
  "if (x == 1) \x7b return 10; \x7d else if (x == 2) \x7b return 20; \x7d else \x7b return 30; \x7d"

/-- The AST `parse_if_statement` builds for `c3_src` (the else-if arm is
a nested `NODE_IF`). -/
def c3_chain : ast_node_t :=
  .if_stmt (.binop .eq (.ident ("x")) (.number_int 1))
    (.block [.return_stmt (some (.number_int 10))])
    (some (.if_stmt (.binop .eq (.ident ("x")) (.number_int 2))
      (.block [.return_stmt (some (.number_int 20))])
      (some (.else_stmt (.block [.return_stmt (some (.number_int 30))])))))

/-- A generator context in which `x` is a `'w'`-kind local at `%t0`
(exactly the state after lowering `int x = 2;` inside `main`). -/
def c3_ctx : codegen_context_t :=
  { ctx0 with
      current_scope := [[{ name := "x", ptr := "%t0", vtype := 'w' }]],
      temp_count := 1 }

/-- The generator output for the scenario-4 chain in that context. -/
def c3_out : String := String.join (gen_stmt 60 c3_chain c3_ctx).out

/-- The spec's scenario-4 `main`, whose body contains the chain. -/
def c3_main_src : String :=
  "int main() \x7b int x = 2; " ++ c3_src ++ " \x7d"

/-- The counterexample program for the string pool: two distinct pooled
literals `"a"`, `"b"` (plus a repeat of `"a"`), and two literals `"x"`,
`"y"` reachable only through a binary operator's operands. -/
def c7_prog : ast_node_t :=
  .program [.func_def ("main") "int" [] (some (.block
    [.assign ("s") (some ("string")) (some (.string_lit ("a"))),
     .assign ("t") (some ("string")) (some (.string_lit ("b"))),
     .assign ("u") (some ("string")) (some (.string_lit ("a"))),
     .return_stmt (some (.binop .plus (.string_lit ("x")) (.string_lit ("y"))))])) false]

/-- Split a character list on spaces (structural replacement for
`String.splitOn " "`, which is not kernel-reducible). -/
def split_sp : List Char → List (List Char)
  | [] => [[]]
  | c :: rest =>
    if c = ' ' then [] :: split_sp rest
    else
      match split_sp rest with
      | f :: fs => (c :: f) :: fs
      | [] => [[c]]

/-- The `n`-th space-separated field of a string. -/
def fieldN (s : String) (n : Nat) : String :=
  String.mk ((split_sp s.data).getD n [])

/-- Does `hay` start with `pat`? -/
def starts_with : List Char → List Char → Bool
  | _, [] => true
  | [], _ :: _ => false
  | c :: cs, d :: ds => c == d && starts_with cs ds

/-- Number of (possibly overlapping) occurrences of `pat` in `hay`. -/
def count_occs : List Char → List Char → Nat
  | [], _ => 0
  | c :: rest, pat =>
    (if starts_with (c :: rest) pat then 1 else 0) + count_occs rest pat

/-- Number of occurrences of `pat` in a string. -/
def count_sub (s pat : String) : Nat := count_occs s.data pat.data

/-- The instruction text `gen_binop` emits for one binary operation on
two `t`-typed operands, starting from the empty context. -/
def emitted_binop (op : token_type_t) (t : Char) : String :=
  String.join (gen_binop op { val := some ("%a"), qbe_type := t }
    { val := some ("%b"), qbe_type := t } ctx0).2.out

/-- The result `gen_binop` yields for one binary operation on two
`t`-typed operands. -/
def result_binop (op : token_type_t) (t : Char) : gen_result_t :=
  (gen_binop op { val := some ("%a"), qbe_type := t }
    { val := some ("%b"), qbe_type := t } ctx0).1

/-- Checks of the emitted instruction for one arithmetic operator: the
mnemonic field is the bare base mnemonic, the result annotation is `=T`,
and the result type is the operand type. -/
def c8_arith_ok (oe : token_type_t × String) (t : Char) : Bool :=
  (fieldN (emitted_binop oe.1 t) 2 == oe.2) &&
  (fieldN (emitted_binop oe.1 t) 1 == "=" ++ String.singleton t) &&
  ((result_binop oe.1 t).qbe_type == t)

/-- Checks of the emitted instruction for one comparison operator: the
mnemonic field is the base mnemonic suffixed with the operand type, the
result annotation is `=w`, and the result type is `w`. -/
def c8_comp_ok (oe : token_type_t × String) (t : Char) : Bool :=
  (fieldN (emitted_binop oe.1 t) 2 == oe.2 ++ String.singleton t) &&
  (fieldN (emitted_binop oe.1 t) 1 == "=w") &&
  ((result_binop oe.1 t).qbe_type == 'w')

/-- A bare operator token (positions irrelevant to parsing). -/
def op_tok (t : token_type_t) : token_t :=
  { type := t, pos := 0, line := 1, column := 1, lexeme := "", len := 1, value := .none }

/-- A bare identifier token. -/
def id_tok (n : String) : token_t :=
  { type := .ident, pos := 0, line := 1, column := 1, lexeme := n, len := 1, value := .none }

/-- The token vector `a <o1> b <o2> c`. -/
def c5_toks (o1 o2 : token_type_t) : List token_t :=
  [id_tok ("a"), op_tok o1, id_tok ("b"), op_tok o2, id_tok ("c"), eof_token]

/-- The expression parse of `a <o1> b <o2> c`. -/
def c5_parse (o1 o2 : token_type_t) : Option ast_node_t :=
  (parse_expression 12 0 { tokens := c5_toks o1 o2, pos := 0, err := false }).1

/-- The tree the precedence table dictates for `a <o1> b <o2> c`:
right-nested exactly when `o2` binds strictly tighter than `o1`,
left-nested otherwise (left associativity on ties). -/
def c5_expected (o1 o2 : token_type_t) : Option ast_node_t :=
  if get_precedence o1 < get_precedence o2 then
    some (.binop o1 (.ident ("a")) (.binop o2 (.ident ("b")) (.ident ("c"))))
  else
    some (.binop o2 (.binop o1 (.ident ("a")) (.ident ("b"))) (.ident ("c")))

/-- The eleven binary operator token kinds. -/
def binop_kinds : List token_type_t :=
  [.plus, .minus, .star, .slash, .percent, .eq, .neq, .lt, .gt, .lte, .gte]

/- ===================== -/
/- Claim theorems        -/
/- ===================== -/

/-- C1 (counterexample): on the all-stages-succeed run `codegen_generate`
returns 0 yet performs neither `unlink`, so the two intermediate files
are not removed before it returns (the removal calls at codegen.c:840-841
are commented out). -/
theorem C1_counterexample :
    (codegen_generate_fs true true true).1 = 0 ∧
    fs_action_t.unlink_qbe ∉ (codegen_generate_fs true true true).2 ∧
    fs_action_t.unlink_asm ∉ (codegen_generate_fs true true true).2 := by
  decide

/-- C1 (amended): `codegen_generate` returns zero exactly when all stages
succeed, and on that success path the intermediates `.qbe` / `.asm` are
retained; the only path that removes them is the linker-failure path. -/
theorem C1_intermediates :
    ∀ fopen_ok qbe_ok cc_ok : Bool,
      ((codegen_generate_fs fopen_ok qbe_ok cc_ok).1 = 0 ↔
        (fopen_ok = true ∧ qbe_ok = true ∧ cc_ok = true)) ∧
      (fs_action_t.unlink_qbe ∈ (codegen_generate_fs fopen_ok qbe_ok cc_ok).2 ↔
        (fopen_ok = true ∧ qbe_ok = true ∧ cc_ok = false)) ∧
      (fs_action_t.unlink_asm ∈ (codegen_generate_fs fopen_ok qbe_ok cc_ok).2 ↔
        (fopen_ok = true ∧ qbe_ok = true ∧ cc_ok = false)) ∧
      ((codegen_generate_fs fopen_ok qbe_ok cc_ok).1 = 0 →
        fs_action_t.unlink_qbe ∉ (codegen_generate_fs fopen_ok qbe_ok cc_ok).2 ∧
        fs_action_t.unlink_asm ∉ (codegen_generate_fs fopen_ok qbe_ok cc_ok).2) := by
  decide

/-- Witness for C1_intermediates at the all-success input: the exit code
is zero and neither intermediate is removed. -/
theorem C1_intermediates_witness :
    fs_action_t.unlink_qbe ∉ (codegen_generate_fs true true true).2 ∧
    fs_action_t.unlink_asm ∉ (codegen_generate_fs true true true).2 :=
  (C1_intermediates true true true).2.2.2 (by decide)

/-- C2 (counterexample): `str_to_qbe_type` maps `"int"` to `'w'`, not the
claimed `'l'` (and a null type name also yields `'w'`, not `'l'`). -/
theorem C2_counterexample :
    (str_to_qbe_type (some ("int"))).1 = 'w' ∧ ('w' : Char) ≠ 'l' ∧
    (str_to_qbe_type none).1 = 'w' := by
  decide

/-- C2 (amended): the emitter's source-type-to-IR-type mapping sends
`int` to `w`, `float` to `d`, `string` to `l`, and a null type name to
`w` (without a diagnostic); every other type name produces the fatal
"Unknown type" diagnostic (returning `w`). -/
theorem C2_type_map :
    str_to_qbe_type (some ("int")) = ('w', false) ∧
    str_to_qbe_type (some ("float")) = ('d', false) ∧
    str_to_qbe_type (some ("string")) = ('l', false) ∧
    str_to_qbe_type none = ('w', false) ∧
    ∀ s : String, s ≠ "int" → s ≠ "float" → s ≠ "string" →
      str_to_qbe_type (some s) = ('w', true) := by
  refine ⟨rfl, rfl, rfl, rfl, ?_⟩
  intro s h1 h2 h3
  simp [str_to_qbe_type, h1, h2, h3]

/-- Witness for C2_type_map at the concrete unknown type name `"quux"`. -/
theorem C2_type_map_witness : str_to_qbe_type (some ("quux")) = ('w', true) :=
  C2_type_map.2.2.2.2 ("quux") (by decide) (by decide) (by decide)

/-- C8 (counterexample): an `l`-typed addition is emitted as
`%t0 =l add 1, 2` with the bare mnemonic `add`, not the claimed
type-suffixed `addl`. -/
theorem C8_counterexample :
    (gen_binop .plus { val := some ("1"), qbe_type := 'l' }
      { val := some ("2"), qbe_type := 'l' } ctx0).2.out = ["%t0 =l add 1, 2\n"] ∧
    ("%t0 =l add 1, 2\n" : String) ≠ "%t0 =l addl 1, 2\n" := by
  decide

/-- C8 (amended): comparison operations are emitted with the mnemonic
suffixed by the operand IR type (`ceql`, result annotated `=w`);
arithmetic operations are emitted with the bare base mnemonic, the
operand type appearing only in the `=T` result annotation. -/
theorem C8_mnemonics :
    (([(.plus, "add"), (.minus, "sub"), (.star, "mul"), (.slash, "div"),
       (.percent, "rem")] : List (token_type_t × String)).all (fun oe =>
      ['w', 'l', 's', 'd'].all (fun t => c8_arith_ok oe t)) = true) ∧
    (([(.eq, "ceq"), (.neq, "cne"), (.lt, "slt"), (.lte, "sle"),
       (.gt, "sgt"), (.gte, "sge")] : List (token_type_t × String)).all (fun oe =>
      ['w', 'l', 's', 'd'].all (fun t => c8_comp_ok oe t)) = true) := by
  decide

/-- With the position at or past the end of the buffer, the peek is the
NUL sentinel. -/
theorem lexer_peek_eof (lex : lexer_t) (h : lex.src.length ≤ lex.pos) :
    lexer_peek lex = '\x00' := by
  simp [lexer_peek, Nat.not_lt.mpr h]

/-- With the position at or past the end of the buffer, skipping
whitespace and comments is the identity. -/
theorem lexer_skip_eof (lex : lexer_t) (h : lex.src.length ≤ lex.pos) :
    lexer_skip_ws_and_comments lex = lex := by
  rw [lexer_skip_ws_and_comments, Nat.sub_eq_zero_of_le h]
  simp [lexer_skip_go, lexer_peek_eof lex h, isspace]

/-- C10: calling `lexer_next` with the position at or past the end of the
source buffer returns an eof-kind token carrying the current position and
leaves the lexer state unchanged; hence the immediately following call
also returns eof. -/
theorem C10_eof_absorbing (ops : List (String × token_type_t)) (lex : lexer_t)
    (h : lex.src.length ≤ lex.pos) :
    lexer_next ops lex =
      ({ type := .eof, pos := lex.pos, line := lex.line, column := lex.column,
         lexeme := "", len := 0, value := .none }, lex) ∧
    (lexer_next ops (lexer_next ops lex).2).1.type = .eof := by
  have h1 : lexer_next ops lex =
      ({ type := .eof, pos := lex.pos, line := lex.line, column := lex.column,
         lexeme := "", len := 0, value := .none }, lex) := by
    rw [lexer_next]
    simp [lexer_skip_eof lex h, lexer_peek_eof lex h]
  exact ⟨h1, by rw [h1, h1]⟩

/-- C3: the claim fails twice on the code.  First, `parse_statement` has
no dispatch to `parse_if_statement` (which is called only by itself), so
a program containing an `if` statement does not parse at all: the sticky
flag latches and `ast_gen` yields NULL on the spec's scenario-4 `main`.
Second, even on the chain AST that `parse_if_statement` itself builds
(nesting a `NODE_IF` in the else branch), `gen_conditional` dispatches
the else branch only on `NODE_ELSEIF` / `NODE_ELSE`, so the nested arm is
dropped: lowering the three-arm chain emits exactly one `jmp @cont` edge
(the claim requires three), no code at all for the `else if` and `else`
arms, and one `@cont` label. -/
theorem C3_chain_lowering :
    (parse_if_statement 60 (pst_of c3_src)).1 = some c3_chain ∧
    (ast_gen 100 (toks_of c3_main_src)).1 = none ∧
    (ast_gen 100 (toks_of c3_main_src)).2.err = true ∧
    (gen_stmt 60 c3_chain c3_ctx).out =
      ["%t1 =w ceqw %t0, 1\n", "jnz %t1, @l1, @l2\n", "@l1\n", "ret 10\n",
       "jmp @l0\n", "@l2\n", "@l0\n"] ∧
    count_sub c3_out ("jmp @l0") = 1 ∧
    count_sub c3_out ("ret 20") = 0 ∧
    count_sub c3_out ("ret 30") = 0 := by
  refine ⟨by rfl, by rfl, by decide, by decide, by decide, by decide, by decide⟩

/-- C5: expression parsing follows the precedence table (`* / %` at 3
bind tighter than `+ -` at 2, which bind tighter than the comparisons at
1) and every binary operator is left-associative: for any two of the
eleven binary operators, `a o1 b o2 c` nests right exactly when `o2`
binds strictly tighter, and nests left otherwise; in particular
`a + b * c` parses as `a + (b * c)`, `a == b + c` as `a == (b + c)`, and
`a - b - c` as `(a - b) - c`. -/
theorem C5_precedence (o1 o2 : token_type_t)
    (h1 : o1 ∈ binop_kinds) (h2 : o2 ∈ binop_kinds) :
    (get_precedence .star = 3 ∧ get_precedence .slash = 3 ∧
     get_precedence .percent = 3 ∧ get_precedence .plus = 2 ∧
     get_precedence .minus = 2 ∧ get_precedence .eq = 1 ∧
     get_precedence .neq = 1 ∧ get_precedence .lt = 1 ∧
     get_precedence .gt = 1 ∧ get_precedence .lte = 1 ∧
     get_precedence .gte = 1 ∧ get_precedence .assign = 0) ∧
    c5_parse o1 o2 = c5_expected o1 o2 ∧
    (parse_expression 30 0 (pst_of ("a + b * c"))).1 =
      some (.binop .plus (.ident ("a")) (.binop .star (.ident ("b")) (.ident ("c")))) ∧
    (parse_expression 30 0 (pst_of ("a == b + c"))).1 =
      some (.binop .eq (.ident ("a")) (.binop .plus (.ident ("b")) (.ident ("c")))) ∧
    (parse_expression 30 0 (pst_of ("a - b - c"))).1 =
      some (.binop .minus (.binop .minus (.ident ("a")) (.ident ("b"))) (.ident ("c"))) := by
  refine ⟨by decide, ?_, by rfl, by rfl, by rfl⟩
  simp only [binop_kinds] at h1 h2
  fin_cases h1 <;> fin_cases h2 <;> rfl

/-- Witness for C5_precedence at the concrete pair `+`, `*`. -/
theorem C5_precedence_witness :
    c5_parse .plus .star =
      some (.binop .plus (.ident ("a")) (.binop .star (.ident ("b")) (.ident ("c")))) := by
  have h := (C5_precedence .plus .star (by decide) (by decide)).2.1
  rw [h]
  rfl

/-- Skipping whitespace and comments is the identity when the current
byte is neither whitespace nor a slash. -/
theorem lexer_skip_fixed (lex : lexer_t) (c : Char)
    (hc : lex.src[lex.pos]? = some c)
    (hws : isspace c = false) (hsl : c ≠ '/') :
    lexer_skip_ws_and_comments lex = lex := by
  have hpeek : lexer_peek lex = c := by
    have hpos : lex.pos < lex.src.length := by
      rcases List.getElem?_eq_some.mp hc with ⟨h, _⟩
      exact h
    simp [lexer_peek, List.getD, hpos, hc]
  rw [lexer_skip_ws_and_comments]
  simp [lexer_skip_go, hpeek, hws, hsl]

/-- `lexer_next` on a byte that starts no literal, identifier, or
whitespace produces exactly the token `lookup_operator` resolves. -/
theorem lexer_next_op_generic (ops : List (String × token_type_t)) (lex : lexer_t) (c : Char)
    (hc : lex.src[lex.pos]? = some c)
    (hws : isspace c = false) (hsl : c ≠ '/') (hnz : c ≠ '\x00')
    (hnd : isdigit c = false) (hna : isalpha c = false) (hnu : (c == '_') = false)
    (hq1 : c ≠ '\'') (hq2 : c ≠ '"')
    (t : token_type_t) (n : Nat) (hlk : lookup_operator ops lex = some (t, n)) :
    (lexer_next ops lex).1.type = t ∧ (lexer_next ops lex).1.len = n := by
  have hpeek : lexer_peek lex = c := by
    have hpos : lex.pos < lex.src.length := by
      rcases List.getElem?_eq_some.mp hc with ⟨h, _⟩
      exact h
    simp [lexer_peek, List.getD, hpos, hc]
  rw [lexer_next]
  simp [lexer_skip_fixed lex c hc hws hsl, hpeek, hnz, hnd, hna, hnu, hq1, hq2, hlk]

/-- At a `==` the operator scan resolves `TOKEN_EQ` with length 2 (the
`"=="` entry precedes `"="` in the table). -/
theorem lookup_op_eq (lex : lexer_t)
    (h0 : lex.src[lex.pos]? = some '=') (h1 : lex.src[lex.pos + 1]? = some '=') :
    lookup_operator operators lex = some (.eq, 2) := by
  have hb : lex.pos + 2 ≤ lex.src.length := by
    rcases List.getElem?_eq_some.mp h1 with ⟨h, _⟩
    omega
  simp [lookup_operator, operators, match_at, List.getD, h0, h1, hb,
    show ("==" : String).length = 2 from rfl]

/-- At a `!=` the operator scan resolves `TOKEN_NEQ` with length 2. -/
theorem lookup_op_neq (lex : lexer_t)
    (h0 : lex.src[lex.pos]? = some '!') (h1 : lex.src[lex.pos + 1]? = some '=') :
    lookup_operator operators lex = some (.neq, 2) := by
  have hb : lex.pos + 2 ≤ lex.src.length := by
    rcases List.getElem?_eq_some.mp h1 with ⟨h, _⟩
    omega
  simp [lookup_operator, operators, match_at, List.getD, h0, h1, hb,
    show ("!=" : String).length = 2 from rfl]

/-- At a `<=` the operator scan resolves `TOKEN_LTE` with length 2 (the
`"<="` entry precedes `"<"`). -/
theorem lookup_op_lte (lex : lexer_t)
    (h0 : lex.src[lex.pos]? = some '<') (h1 : lex.src[lex.pos + 1]? = some '=') :
    lookup_operator operators lex = some (.lte, 2) := by
  have hb : lex.pos + 2 ≤ lex.src.length := by
    rcases List.getElem?_eq_some.mp h1 with ⟨h, _⟩
    omega
  simp [lookup_operator, operators, match_at, List.getD, h0, h1, hb,
    show ("<=" : String).length = 2 from rfl]

/-- At a `>=` the operator scan resolves `TOKEN_GTE` with length 2 (the
`">="` entry precedes `">"`). -/
theorem lookup_op_gte (lex : lexer_t)
    (h0 : lex.src[lex.pos]? = some '>') (h1 : lex.src[lex.pos + 1]? = some '=') :
    lookup_operator operators lex = some (.gte, 2) := by
  have hb : lex.pos + 2 ≤ lex.src.length := by
    rcases List.getElem?_eq_some.mp h1 with ⟨h, _⟩
    omega
  simp [lookup_operator, operators, match_at, List.getD, h0, h1, hb,
    show (">=" : String).length = 2 from rfl]

/-- C6: operator tokenisation is longest-match: wherever the two-byte
operators `==`, `!=`, `<=`, `>=` match, `lexer_next` produces that single
two-byte token rather than the one-character prefix token; in particular
`a==b` lexes as identifier, one `==` token, identifier, eof. -/
theorem C6_longest_match (lex : lexer_t) :
    (lex.src[lex.pos]? = some '=' → lex.src[lex.pos + 1]? = some '=' →
      (lexer_next operators lex).1.type = .eq ∧ (lexer_next operators lex).1.len = 2) ∧
    (lex.src[lex.pos]? = some '!' → lex.src[lex.pos + 1]? = some '=' →
      (lexer_next operators lex).1.type = .neq ∧ (lexer_next operators lex).1.len = 2) ∧
    (lex.src[lex.pos]? = some '<' → lex.src[lex.pos + 1]? = some '=' →
      (lexer_next operators lex).1.type = .lte ∧ (lexer_next operators lex).1.len = 2) ∧
    (lex.src[lex.pos]? = some '>' → lex.src[lex.pos + 1]? = some '=' →
      (lexer_next operators lex).1.type = .gte ∧ (lexer_next operators lex).1.len = 2) ∧
    (toks_of ("a==b")).map (fun t => t.type) = [.ident, .eq, .ident, .eof] := by
  refine ⟨?_, ?_, ?_, ?_, by decide⟩
  · intro h0 h1
    exact lexer_next_op_generic operators lex '=' h0 (by decide) (by decide) (by decide)
      (by decide) (by decide) (by decide) (by decide) (by decide)
      .eq 2 (lookup_op_eq lex h0 h1)
  · intro h0 h1
    exact lexer_next_op_generic operators lex '!' h0 (by decide) (by decide) (by decide)
      (by decide) (by decide) (by decide) (by decide) (by decide)
      .neq 2 (lookup_op_neq lex h0 h1)
  · intro h0 h1
    exact lexer_next_op_generic operators lex '<' h0 (by decide) (by decide) (by decide)
      (by decide) (by decide) (by decide) (by decide) (by decide)
      .lte 2 (lookup_op_lte lex h0 h1)
  · intro h0 h1
    exact lexer_next_op_generic operators lex '>' h0 (by decide) (by decide) (by decide)
      (by decide) (by decide) (by decide) (by decide) (by decide)
      .gte 2 (lookup_op_gte lex h0 h1)

/-- Witness for C6_longest_match: the `<=` case at a concrete buffer. -/
theorem C6_longest_match_witness :
    (lexer_next operators (lexer_init ("<=1"))).1.type = .lte ∧
    (lexer_next operators (lexer_init ("<=1"))).1.len = 2 :=
  (C6_longest_match (lexer_init ("<=1"))).2.2.1 (by decide) (by decide)

/-- At a `...` the spec-modelled operator table resolves the ellipsis
token with length 3 (the entry precedes `"."`). -/
theorem lookup_op_ellipsis (lex : lexer_t)
    (h0 : lex.src[lex.pos]? = some '.') (h1 : lex.src[lex.pos + 1]? = some '.')
    (h2 : lex.src[lex.pos + 2]? = some '.') :
    lookup_operator operators_spec lex = some (.ellipsis, 3) := by
  have hb : lex.pos + 3 ≤ lex.src.length := by
    rcases List.getElem?_eq_some.mp h2 with ⟨h, _⟩
    omega
  have h1' : lex.src[lex.pos + 1]? = some '.' := h1
  have h2' : lex.src[lex.pos + 1 + 1]? = some '.' := by
    rw [show lex.pos + 1 + 1 = lex.pos + 2 from rfl]
    exact h2
  simp [lookup_operator, operators_spec, match_at, List.getD, h0, h1', h2', hb,
    show ("..." : String).length = 3 from rfl]

/-- C4: under the spec-modelled table the three-byte sequence `...`
lexes as a single ellipsis token of length 3 (not three `.` tokens); the
parser accepts `...` only as the last parameter, and a `,` right after
the `...` is a fatal parse error (sticky flag latched, NULL result). -/
theorem C4_ellipsis (lex : lexer_t) (st : pstate_t) :
    (lex.src[lex.pos]? = some '.' → lex.src[lex.pos + 1]? = some '.' →
     lex.src[lex.pos + 2]? = some '.' →
      (lexer_next operators_spec lex).1.type = .ellipsis ∧
      (lexer_next operators_spec lex).1.len = 3) ∧
    ((toks_of_spec ("...")).map (fun t => t.type) = [.ellipsis, .eof]) ∧
    (st.err = false → (parser_peek st).type = .lparen →
     (st.tokens.getD (st.pos + 1) eof_token).type = .ellipsis →
     (st.tokens.getD (st.pos + 2) eof_token).type = .comma →
      (parse_param_list st).1 = [] ∧ (parse_param_list st).2.err = true) ∧
    ((parse_param_list (pst_of_spec ("(int a, ...)"))).1 =
      [{ name := "a", name_len := 1, type := some ("int"), is_variadic := false },
       { name := "", name_len := 0, type := none, is_variadic := true }] ∧
     (parse_param_list (pst_of_spec ("(int a, ...)"))).2.err = false) := by
  refine ⟨?_, by decide, ?_, by decide⟩
  · intro h0 h1 h2
    exact lexer_next_op_generic operators_spec lex '.' h0 (by decide) (by decide) (by decide)
      (by decide) (by decide) (by decide) (by decide) (by decide)
      .ellipsis 3 (lookup_op_ellipsis lex h0 h1 h2)
  · intro he hp h1 h2
    simp only [parser_peek, List.getD, List.get?_eq_getElem?] at hp h1 h2
    have h2' : (st.tokens[st.pos + 1 + 1]?.getD eof_token).type = .comma := by
      rw [show st.pos + 1 + 1 = st.pos + 2 from rfl]
      exact h2
    simp [parse_param_list, he, hp, param_loop, parser_peek, parser_advance,
      parser_error, List.getD, h1, h2']

/-- Witness for C4_ellipsis: the lexer half on the concrete buffer
`...)` and the parser half on the concrete vector for `(..., int a)`. -/
theorem C4_ellipsis_witness :
    ((lexer_next operators_spec (lexer_init ("...)"))).1.type = .ellipsis ∧
     (lexer_next operators_spec (lexer_init ("...)"))).1.len = 3) ∧
    ((parse_param_list (pst_of_spec ("(..., int a)"))).1 = [] ∧
     (parse_param_list (pst_of_spec ("(..., int a)"))).2.err = true) :=
  ⟨(C4_ellipsis (lexer_init ("...)")) (pst_of_spec ("(..., int a)"))).1
      (by decide) (by decide) (by decide),
   (C4_ellipsis (lexer_init ("...)")) (pst_of_spec ("(..., int a)"))).2.2.1
      (by decide) (by decide) (by decide) (by decide)⟩

/-- C9: parser error handling is sticky: with the sticky flag set, every
parse operation returns NULL at once with the state untouched, and the
top-level `ast_gen` returns NULL (never a partial Program) whenever its
run ends with the flag set. -/
theorem C9_sticky_errors (fuel : Nat) (minp : Int) (st : pstate_t)
    (toks : List token_t) :
    (st.err = true →
      parse_factor fuel st = (none, st) ∧
      parse_expression fuel minp st = (none, st) ∧
      parse_statement fuel st = (none, st) ∧
      parse_func_def fuel st = (none, st) ∧
      parse_func_call fuel st = (none, st) ∧
      parse_if_statement fuel st = (none, st) ∧
      parse_param_list st = ([], st)) ∧
    ((ast_gen fuel toks).2.err = true → (ast_gen fuel toks).1 = none) := by
  constructor
  · intro he
    cases fuel with
    | zero =>
      simp [parse_factor, parse_expression, parse_statement, parse_func_def,
        parse_func_call, parse_if_statement, parse_param_list, he]
    | succ n =>
      simp [parse_factor, parse_expression, parse_statement, parse_func_def,
        parse_func_call, parse_if_statement, parse_param_list, he]
  · intro h
    rcases hgo : ast_gen_go fuel { tokens := toks, pos := 0, err := false } [] with ⟨s?, stf⟩
    cases s? with
    | none => simp [ast_gen, hgo]
    | some acc =>
      by_cases hp : (parser_peek stf).type = .eof
      · rw [ast_gen, hgo] at h ⊢
        simp [hp] at h ⊢
        simp [mk_node, h]
      · rw [ast_gen, hgo]
        simp [hp]

/-- Witness for C9_sticky_errors: a concrete errored state, and a
concrete token vector (a lone `;`) whose top-level parse records an error
and yields NULL. -/
theorem C9_sticky_errors_witness :
    parse_statement 2 { tokens := [], pos := 0, err := true } =
      (none, { tokens := [], pos := 0, err := true }) ∧
    (ast_gen 3 [{ type := .semi, pos := 0, line := 1, column := 1,
                  lexeme := ";", len := 1, value := .none }]).1 = none :=
  ⟨((C9_sticky_errors 2 0 { tokens := [], pos := 0, err := true } []).1 rfl).2.2.1,
   (C9_sticky_errors 3 0 { tokens := [], pos := 0, err := true }
      [{ type := .semi, pos := 0, line := 1, column := 1,
         lexeme := ";", len := 1, value := .none }]).2 (by decide)⟩

/-- Witness for C10_eof_absorbing: a concrete exhausted lexer state. -/
theorem C10_eof_absorbing_witness :
    lexer_next operators { src := ['a', 'b'], pos := 2, line := 1, column := 3 } =
      ({ type := .eof, pos := 2, line := 1, column := 3,
         lexeme := "", len := 0, value := .none },
       { src := ['a', 'b'], pos := 2, line := 1, column := 3 }) :=
  (C10_eof_absorbing operators
    { src := ['a', 'b'], pos := 2, line := 1, column := 3 } (by decide)).1

/- =========================== -/
/- String pool: C7 development -/
/- =========================== -/

@[simp] theorem collect_eq_program (st : strpool_t) (l : List ast_node_t) :
    collect_strings st (.program l) = l.foldl collect_strings st := by
  rw [collect_strings.eq_def]
  exact List.foldl_attach l collect_strings st

@[simp] theorem collect_eq_block (st : strpool_t) (l : List ast_node_t) :
    collect_strings st (.block l) = l.foldl collect_strings st := by
  rw [collect_strings.eq_def]
  exact List.foldl_attach l collect_strings st

@[simp] theorem collect_eq_call (st : strpool_t) (n : String) (l : List ast_node_t) :
    collect_strings st (.func_call n l) = l.foldl collect_strings st := by
  rw [collect_strings.eq_def]
  exact List.foldl_attach l collect_strings st

@[simp] theorem collect_eq_funcdef_decl (st : strpool_t) (n rt : String)
    (ps : List param_node_t) (root : Option ast_node_t) :
    collect_strings st (.func_def n rt ps root true) = st := by
  rw [collect_strings.eq_def]
  try rfl

@[simp] theorem collect_eq_funcdef_none (st : strpool_t) (n rt : String)
    (ps : List param_node_t) :
    collect_strings st (.func_def n rt ps none false) = st := by
  rw [collect_strings.eq_def]
  try rfl

@[simp] theorem collect_eq_funcdef_some (st : strpool_t) (n rt : String)
    (ps : List param_node_t) (r : ast_node_t) :
    collect_strings st (.func_def n rt ps (some r) false) = collect_strings st r := by
  rw [collect_strings.eq_def]
  try rfl

@[simp] theorem collect_eq_return_none (st : strpool_t) :
    collect_strings st (.return_stmt none) = st := by
  rw [collect_strings.eq_def]
  try rfl

@[simp] theorem collect_eq_return_some (st : strpool_t) (x : ast_node_t) :
    collect_strings st (.return_stmt (some x)) = collect_strings st x := by
  rw [collect_strings.eq_def]
  try rfl

@[simp] theorem collect_eq_assign_none (st : strpool_t) (n : String) (ty : Option String) :
    collect_strings st (.assign n ty none) = st := by
  rw [collect_strings.eq_def]
  try rfl

@[simp] theorem collect_eq_assign_some (st : strpool_t) (n : String) (ty : Option String)
    (x : ast_node_t) :
    collect_strings st (.assign n ty (some x)) = collect_strings st x := by
  rw [collect_strings.eq_def]
  try rfl

@[simp] theorem collect_eq_if_none (st : strpool_t) (c t : ast_node_t) :
    collect_strings st (.if_stmt c t none) =
      collect_strings (collect_strings st c) t := by
  rw [collect_strings.eq_def]
  try rfl

@[simp] theorem collect_eq_if_some (st : strpool_t) (c t x : ast_node_t) :
    collect_strings st (.if_stmt c t (some x)) =
      collect_strings (collect_strings (collect_strings st c) t) x := by
  rw [collect_strings.eq_def]
  try rfl

@[simp] theorem collect_eq_elseif_none (st : strpool_t) (c t : ast_node_t) :
    collect_strings st (.elseif_stmt c t none) =
      collect_strings (collect_strings st c) t := by
  rw [collect_strings.eq_def]
  try rfl

@[simp] theorem collect_eq_elseif_some (st : strpool_t) (c t x : ast_node_t) :
    collect_strings st (.elseif_stmt c t (some x)) =
      collect_strings (collect_strings (collect_strings st c) t) x := by
  rw [collect_strings.eq_def]
  try rfl

@[simp] theorem collect_eq_else (st : strpool_t) (b : ast_node_t) :
    collect_strings st (.else_stmt b) = collect_strings st b := by
  rw [collect_strings.eq_def]
  try rfl

@[simp] theorem collect_eq_string (st : strpool_t) (v : String) :
    collect_strings st (.string_lit v) = intern_string st v := by
  rw [collect_strings.eq_def]
  try rfl

@[simp] theorem collect_eq_binop (st : strpool_t) (op : token_type_t) (l r : ast_node_t) :
    collect_strings st (.binop op l r) = st := by
  rw [collect_strings.eq_def]
  try rfl

@[simp] theorem collect_eq_number_int (st : strpool_t) (v : Int) :
    collect_strings st (.number_int v) = st := by
  rw [collect_strings.eq_def]
  try rfl

@[simp] theorem collect_eq_number_float (st : strpool_t) (v : String) :
    collect_strings st (.number_float v) = st := by
  rw [collect_strings.eq_def]
  try rfl

@[simp] theorem collect_eq_ident (st : strpool_t) (n : String) :
    collect_strings st (.ident n) = st := by
  rw [collect_strings.eq_def]
  try rfl

@[simp] theorem collect_eq_import (st : strpool_t) (m : String) :
    collect_strings st (.import_stmt m) = st := by
  rw [collect_strings.eq_def]
  try rfl

@[simp] theorem occs_eq_program (l : List ast_node_t) :
    string_occurrences (.program l) =
      l.foldl (fun acc c => acc ++ string_occurrences c) [] := by
  rw [string_occurrences.eq_def]
  exact List.foldl_attach l (fun acc c => acc ++ string_occurrences c) []

@[simp] theorem occs_eq_block (l : List ast_node_t) :
    string_occurrences (.block l) =
      l.foldl (fun acc c => acc ++ string_occurrences c) [] := by
  rw [string_occurrences.eq_def]
  exact List.foldl_attach l (fun acc c => acc ++ string_occurrences c) []

@[simp] theorem occs_eq_call (n : String) (l : List ast_node_t) :
    string_occurrences (.func_call n l) =
      l.foldl (fun acc c => acc ++ string_occurrences c) [] := by
  rw [string_occurrences.eq_def]
  exact List.foldl_attach l (fun acc c => acc ++ string_occurrences c) []

@[simp] theorem occs_eq_funcdef_decl (n rt : String) (ps : List param_node_t)
    (root : Option ast_node_t) :
    string_occurrences (.func_def n rt ps root true) = [] := by
  rw [string_occurrences.eq_def]
  try rfl

@[simp] theorem occs_eq_funcdef_none (n rt : String) (ps : List param_node_t) :
    string_occurrences (.func_def n rt ps none false) = [] := by
  rw [string_occurrences.eq_def]
  try rfl

@[simp] theorem occs_eq_funcdef_some (n rt : String) (ps : List param_node_t)
    (r : ast_node_t) :
    string_occurrences (.func_def n rt ps (some r) false) = string_occurrences r := by
  rw [string_occurrences.eq_def]
  try rfl

@[simp] theorem occs_eq_return_none :
    string_occurrences (.return_stmt none) = [] := by
  rw [string_occurrences.eq_def]
  try rfl

@[simp] theorem occs_eq_return_some (x : ast_node_t) :
    string_occurrences (.return_stmt (some x)) = string_occurrences x := by
  rw [string_occurrences.eq_def]
  try rfl

@[simp] theorem occs_eq_assign_none (n : String) (ty : Option String) :
    string_occurrences (.assign n ty none) = [] := by
  rw [string_occurrences.eq_def]
  try rfl

@[simp] theorem occs_eq_assign_some (n : String) (ty : Option String) (x : ast_node_t) :
    string_occurrences (.assign n ty (some x)) = string_occurrences x := by
  rw [string_occurrences.eq_def]
  try rfl

@[simp] theorem occs_eq_if_none (c t : ast_node_t) :
    string_occurrences (.if_stmt c t none) =
      string_occurrences c ++ string_occurrences t ++ [] := by
  rw [string_occurrences.eq_def]
  try rfl

@[simp] theorem occs_eq_if_some (c t x : ast_node_t) :
    string_occurrences (.if_stmt c t (some x)) =
      string_occurrences c ++ string_occurrences t ++ string_occurrences x := by
  rw [string_occurrences.eq_def]
  try rfl

@[simp] theorem occs_eq_elseif_none (c t : ast_node_t) :
    string_occurrences (.elseif_stmt c t none) =
      string_occurrences c ++ string_occurrences t ++ [] := by
  rw [string_occurrences.eq_def]
  try rfl

@[simp] theorem occs_eq_elseif_some (c t x : ast_node_t) :
    string_occurrences (.elseif_stmt c t (some x)) =
      string_occurrences c ++ string_occurrences t ++ string_occurrences x := by
  rw [string_occurrences.eq_def]
  try rfl

@[simp] theorem occs_eq_else (b : ast_node_t) :
    string_occurrences (.else_stmt b) = string_occurrences b := by
  rw [string_occurrences.eq_def]
  try rfl

@[simp] theorem occs_eq_string (v : String) :
    string_occurrences (.string_lit v) = [v] := by
  rw [string_occurrences.eq_def]
  try rfl

@[simp] theorem occs_eq_binop (op : token_type_t) (l r : ast_node_t) :
    string_occurrences (.binop op l r) = [] := by
  rw [string_occurrences.eq_def]
  try rfl

@[simp] theorem occs_eq_number_int (v : Int) :
    string_occurrences (.number_int v) = [] := by
  rw [string_occurrences.eq_def]
  try rfl

@[simp] theorem occs_eq_number_float (v : String) :
    string_occurrences (.number_float v) = [] := by
  rw [string_occurrences.eq_def]
  try rfl

@[simp] theorem occs_eq_ident (n : String) :
    string_occurrences (.ident n) = [] := by
  rw [string_occurrences.eq_def]
  try rfl

@[simp] theorem occs_eq_import (m : String) :
    string_occurrences (.import_stmt m) = [] := by
  rw [string_occurrences.eq_def]
  try rfl

/-- Prepending a seed to an append-accumulating fold. -/
theorem foldl_append_acc (g : ast_node_t → List String) (l : List ast_node_t) :
    ∀ a : List String,
      l.foldl (fun acc c => acc ++ g c) a = a ++ l.foldl (fun acc c => acc ++ g c) [] := by
  induction l with
  | nil => intro a; simp
  | cons c cs ih =>
    intro a
    simp only [List.foldl_cons, List.nil_append]
    rw [ih (a ++ g c), ih (g c), List.append_assoc]

/-- Folding the collector over a list equals folding the interner over
the concatenated occurrence lists, given the claim for each element. -/
theorem fold_collect_list (l : List ast_node_t)
    (ih : ∀ c ∈ l, ∀ s, collect_strings s c = (string_occurrences c).foldl intern_string s) :
    ∀ st, l.foldl collect_strings st =
      (l.foldl (fun acc c => acc ++ string_occurrences c) []).foldl intern_string st := by
  induction l with
  | nil => intro st; simp
  | cons c cs ihl =>
    intro st
    simp only [List.foldl_cons, List.nil_append]
    rw [foldl_append_acc string_occurrences cs (string_occurrences c)]
    rw [List.foldl_append]
    rw [← ih c (List.mem_cons_self c cs) st]
    exact ihl (fun d hd s => ih d (List.mem_cons_of_mem c hd) s) (collect_strings st c)

/-- `collect_strings` is the fold of the interning step over the
pre-order occurrence list. -/
theorem collect_strings_eq_fold (n : Nat) :
    ∀ a : ast_node_t, sizeOf a ≤ n → ∀ st,
      collect_strings st a = (string_occurrences a).foldl intern_string st := by
  induction n with
  | zero =>
    intro a h
    cases a <;> simp at h
  | succ n ih =>
    intro a h st
    cases a with
    | program l =>
      have hm : ∀ c ∈ l, ∀ s,
          collect_strings s c = (string_occurrences c).foldl intern_string s := by
        intro c hc s
        have := List.sizeOf_lt_of_mem hc
        apply ih c (by simp at h; omega) s
      simp only [collect_eq_program, occs_eq_program]
      exact fold_collect_list l hm st
    | block l =>
      have hm : ∀ c ∈ l, ∀ s,
          collect_strings s c = (string_occurrences c).foldl intern_string s := by
        intro c hc s
        have := List.sizeOf_lt_of_mem hc
        apply ih c (by simp at h; omega) s
      simp only [collect_eq_block, occs_eq_block]
      exact fold_collect_list l hm st
    | func_call nm l =>
      have hm : ∀ c ∈ l, ∀ s,
          collect_strings s c = (string_occurrences c).foldl intern_string s := by
        intro c hc s
        have := List.sizeOf_lt_of_mem hc
        apply ih c (by simp at h; omega) s
      simp only [collect_eq_call, occs_eq_call]
      exact fold_collect_list l hm st
    | func_def nm rt ps root d =>
      cases d with
      | true => simp
      | false =>
        cases root with
        | none => simp
        | some r =>
          simp only [collect_eq_funcdef_some, occs_eq_funcdef_some]
          exact ih r (by simp at h; omega) st
    | return_stmt e =>
      cases e with
      | none => simp
      | some x =>
        simp only [collect_eq_return_some, occs_eq_return_some]
        exact ih x (by simp at h; omega) st
    | assign nm ty v =>
      cases v with
      | none => simp
      | some x =>
        simp only [collect_eq_assign_some, occs_eq_assign_some]
        exact ih x (by simp at h; omega) st
    | if_stmt c t e =>
      have hc := ih c (by simp at h; omega)
      have ht := ih t (by simp at h; omega)
      cases e with
      | none =>
        simp only [collect_eq_if_none, occs_eq_if_none, List.append_nil, List.foldl_append]
        rw [← hc st]
        exact ht (collect_strings st c)
      | some x =>
        have hx := ih x (by simp at h; omega)
        simp only [collect_eq_if_some, occs_eq_if_some, List.foldl_append]
        rw [← hc st, ← ht (collect_strings st c)]
        exact hx (collect_strings (collect_strings st c) t)
    | elseif_stmt c t e =>
      have hc := ih c (by simp at h; omega)
      have ht := ih t (by simp at h; omega)
      cases e with
      | none =>
        simp only [collect_eq_elseif_none, occs_eq_elseif_none, List.append_nil,
          List.foldl_append]
        rw [← hc st]
        exact ht (collect_strings st c)
      | some x =>
        have hx := ih x (by simp at h; omega)
        simp only [collect_eq_elseif_some, occs_eq_elseif_some, List.foldl_append]
        rw [← hc st, ← ht (collect_strings st c)]
        exact hx (collect_strings (collect_strings st c) t)
    | else_stmt b =>
      simp only [collect_eq_else, occs_eq_else]
      exact ih b (by simp at h; omega) st
    | binop op l r => simp
    | number_int v => simp
    | number_float v => simp
    | ident nm => simp
    | string_lit v => simp
    | import_stmt m => simp

/-- The redundant length test in the interner's `memcmp` guard reduces to
plain string equality. -/
theorem value_match_eq (a b : String) : (a.length == b.length && a == b) = (a == b) := by
  cases hb : (a == b) with
  | false => simp [hb]
  | true =>
    have : a = b := eq_of_beq hb
    subst this
    simp

/-- `pool_step` is the identity on an already-present byte sequence. -/
theorem pool_step_mem (acc : List str_info_t) (v : String)
    (hm : ∃ si ∈ acc, si.value = v) : pool_step acc v = acc := by
  simp only [pool_step]
  simp [List.any_eq_true]
  rcases hm with ⟨si, hsi, hv⟩
  exact ⟨si, hsi, hv⟩

/-- `pool_step` appends a freshly numbered entry for a new byte
sequence. -/
theorem pool_step_new (acc : List str_info_t) (v : String)
    (hm : ¬∃ si ∈ acc, si.value = v) :
    pool_step acc v = acc ++ [{ value := v, gname := "$str" ++ toString acc.length }] := by
  simp only [pool_step]
  rw [if_neg]
  simp [List.any_eq_true]
  intro si hsi hv
  exact hm ⟨si, hsi, hv⟩

/-- Folding the source's interner from a state that is the reverse of a
spec-side pool yields the reverse of the spec-side fold: the prepend list
is the mirrored append list with the same `$strN` numbering. -/
theorem intern_fold (occs : List String) :
    ∀ P : List str_info_t,
      occs.foldl intern_string { strings := P.reverse, str_count := P.length } =
        { strings := (occs.foldl pool_step P).reverse,
          str_count := (occs.foldl pool_step P).length } := by
  induction occs with
  | nil => intro P; rfl
  | cons v rest ih =>
    intro P
    simp only [List.foldl_cons]
    by_cases hmem : ∃ si ∈ P, si.value = v
    · have h1 : intern_string { strings := P.reverse, str_count := P.length } v
          = { strings := P.reverse, str_count := P.length } := by
        simp only [intern_string, value_match_eq]
        simp [List.any_eq_true, List.mem_reverse]
        rcases hmem with ⟨si, hsi, hv⟩
        exact ⟨si, hsi, hv⟩
      rw [h1, pool_step_mem P v hmem]
      exact ih P
    · have h1 : intern_string { strings := P.reverse, str_count := P.length } v
          = { strings :=
                { value := v, gname := "$str" ++ toString P.length } :: P.reverse,
              str_count := P.length + 1 } := by
        simp only [intern_string, value_match_eq]
        rw [if_neg]
        simp [List.any_eq_true, List.mem_reverse]
        intro si hsi hv
        exact hmem ⟨si, hsi, hv⟩
      rw [h1, pool_step_new P v hmem]
      have := ih (P ++ [{ value := v, gname := "$str" ++ toString P.length }])
      simpa using this

/-- Membership in the spec-side pool's values: exactly the seed's values
plus the occurrences. -/
theorem pool_fold_mem (occs : List String) :
    ∀ (acc : List str_info_t) (v : String),
      (v ∈ (occs.foldl pool_step acc).map (fun si => si.value)) ↔
        (v ∈ acc.map (fun si => si.value) ∨ v ∈ occs) := by
  induction occs with
  | nil => intro acc v; simp
  | cons w rest ih =>
    intro acc v
    simp only [List.foldl_cons, List.mem_cons]
    rw [ih]
    by_cases hm : ∃ si ∈ acc, si.value = w
    · rw [pool_step_mem acc w hm]
      have hw : w ∈ acc.map (fun si => si.value) := by
        rcases hm with ⟨si, hsi, hv⟩
        exact hv ▸ List.mem_map_of_mem (fun si => si.value) hsi
      constructor
      · rintro (h | h)
        · exact Or.inl h
        · exact Or.inr (Or.inr h)
      · rintro (h | h | h)
        · exact Or.inl h
        · exact Or.inl (h ▸ hw)
        · exact Or.inr h
    · rw [pool_step_new acc w hm]
      simp only [List.map_append, List.mem_append, List.map_cons, List.map_nil,
        List.mem_singleton, List.mem_cons]
      constructor
      · rintro ((h | h) | h)
        · exact Or.inl h
        · simp at h
          exact Or.inr (Or.inl h)
        · exact Or.inr (Or.inr h)
      · rintro (h | h | h)
        · exact Or.inl (Or.inl h)
        · exact Or.inl (Or.inr (by simp [h]))
        · exact Or.inr h

/-- The spec-side pool never holds the same byte sequence twice. -/
theorem pool_fold_nodup (occs : List String) :
    ∀ acc : List str_info_t, (acc.map (fun si => si.value)).Nodup →
      ((occs.foldl pool_step acc).map (fun si => si.value)).Nodup := by
  induction occs with
  | nil => intro acc h; exact h
  | cons w rest ih =>
    intro acc hnd
    simp only [List.foldl_cons]
    apply ih
    by_cases hm : ∃ si ∈ acc, si.value = w
    · rw [pool_step_mem acc w hm]
      exact hnd
    · rw [pool_step_new acc w hm]
      have hw : w ∉ acc.map (fun si => si.value) := by
        intro hc
        rcases List.mem_map.mp hc with ⟨si, hsi, hv⟩
        exact hm ⟨si, hsi, hv⟩
      simp only [List.map_append, List.map_cons, List.map_nil]
      rw [List.nodup_append]
      refine ⟨hnd, List.nodup_singleton w, ?_⟩
      intro a ha hb
      simp at hb
      subst hb
      exact hw ha

/-- The data-section emission loop appends exactly the rendered pool
entries, in pool order. -/
theorem emit_fold_data (l : List str_info_t) :
    ∀ ctx : codegen_context_t,
      (l.foldl (fun c si => emit (data_line si) c) ctx).out = ctx.out ++ l.map data_line := by
  induction l with
  | nil => intro ctx; simp
  | cons si rest ih =>
    intro ctx
    simp only [List.foldl_cons, List.map_cons]
    rw [ih]
    simp [emit]

/-- The pool `codegen_generate` builds is the reverse of the spec-side
first-encounter pool of the walk's occurrence list. -/
theorem string_pool_spec (root : ast_node_t) :
    (string_pool root).strings = (pool_spec (string_occurrences root)).reverse := by
  have h1 := collect_strings_eq_fold (sizeOf root) root (Nat.le_refl _)
    { strings := [], str_count := 0 }
  have h2 := intern_fold (string_occurrences root) []
  simp only [List.reverse_nil, List.length_nil] at h2
  rw [string_pool, h1, h2, pool_spec]

/-- C7 (counterexample): on a `main` with literals `"a"`, `"b"`, `"a"` in
statement position and `"x"`, `"y"` under a binary operator, the emitted
pool is `[$str1 ↦ "b", $str0 ↦ "a"]`: the entries appear in **reverse**
first-encounter order (the claim requires `"a"` first), and the
binop-reachable literal `"x"` gets no entry at all (the claim requires
one per distinct reachable literal). -/
theorem C7_counterexample :
    (string_pool c7_prog).strings.map (fun si => (si.gname, si.value)) =
      [("$str1", "b"), ("$str0", "a")] ∧
    "x" ∉ (string_pool c7_prog).strings.map (fun si => si.value) := by
  have hoccs : string_occurrences c7_prog = ["a", "b", "a"] := by
    simp [c7_prog]
  have h := string_pool_spec c7_prog
  rw [hoccs] at h
  rw [h]
  decide

/-- C7 (amended): the pool `codegen_generate` emits contains exactly one
`data` entry per distinct string-literal byte sequence occurring along
the collector's walk of the function bodies (which descends through
blocks, returns, call arguments, assignment values and if/else branches,
but not through binary-operator operands), with `$strN` names assigned in
first-encounter order — and the entries are emitted in **reverse**
first-encounter order of that pre-order walk, because the pool is a
prepend list. -/
theorem C7_string_pool (root : ast_node_t) (ctx : codegen_context_t) :
    (string_pool root).strings = (pool_spec (string_occurrences root)).reverse ∧
    ((string_pool root).strings.map (fun si => si.value)).Nodup ∧
    (∀ v, v ∈ (string_pool root).strings.map (fun si => si.value) ↔
      v ∈ string_occurrences root) ∧
    ((string_pool root).strings.foldl (fun c si => emit (data_line si) c) ctx).out =
      ctx.out ++ (string_pool root).strings.map data_line := by
  refine ⟨string_pool_spec root, ?_, ?_, emit_fold_data _ ctx⟩
  · rw [string_pool_spec root, List.map_reverse, List.nodup_reverse, pool_spec]
    exact pool_fold_nodup (string_occurrences root) [] (by simp)
  · intro v
    rw [string_pool_spec root, List.map_reverse, List.mem_reverse, pool_spec]
    have := pool_fold_mem (string_occurrences root) [] v
    simpa using this

end Cmicro
